import Mathlib

/-!
# eino-exp: streaming predicates, the two-model chat graph and the fake restaurant service

A shallow embedding of the Go sources

* `react/react.go` (`toolCallChecker`, the `LoggerCallback` stream bridge, the result loop),
* `two_model_chat/two_model_chat.go` (the writer/critic graph, its pre-handlers, its branch
  predicate, the `streamResponse` bridge and the result loop),
* `react/tools/service.go` (the in-memory restaurant database, `QueryDishes` and
  `QueryRestaurants`).

Go values that carry an `error` are embedded as `Except`; loops that pull from a stream are
embedded with an explicit iteration budget and return `none` when the budget is exhausted,
so that every statement of the form "the code returns ..." is proved as `= some ...`.
-/

namespace EinoExp

/-! ## Messages and errors -/

/-- The role tag of `schema.Message`. -/
inductive RoleType
  | System
  | User
  | Assistant
  | Tool
deriving DecidableEq, Repr

/-- The `schema.ToolCall` record, reduced to the fields that identify a call. -/
structure ToolCall where
  ID : String
  Name : String
  Arguments : String
deriving DecidableEq, Repr

/-- The `schema.Message` record: the fields read by the programs of this repository. -/
structure Message where
  Role : RoleType
  Content : String
  ToolCalls : List ToolCall
deriving DecidableEq, Repr

/-- The constructor `schema.SystemMessage(content)`. -/
def SystemMessage (content : String) : Message :=
  { Role := RoleType.System, Content := content, ToolCalls := [] }

/-- The constructor `schema.UserMessage(content)`. -/
def UserMessage (content : String) : Message :=
  { Role := RoleType.User, Content := content, ToolCalls := [] }

/-- A Go `error` value as the stream consumers see it: either `io.EOF` or another error,
kept by its message. `errors.Is(err, io.EOF)` and `err == io.EOF` both hold exactly for
`GoError.EOF`. -/
inductive GoError
  | EOF
  | other (msg : String)
deriving DecidableEq, Repr

/-- The text `err.Error()` of an error, as `%s` and `%v` print it. -/
def GoError.Error : GoError → String
  | GoError.EOF => "EOF"
  | GoError.other msg => msg

/-- Equality of Go results (`Except`) is decidable when it is on both components. -/
instance instDecidableEqExcept {ε α : Type} [DecidableEq ε] [DecidableEq α] :
    DecidableEq (Except ε α)
  | Except.ok a, Except.ok b =>
      if h : a = b then isTrue (by rw [h]) else isFalse (fun h1 => h (by cases h1; rfl))
  | Except.error a, Except.error b =>
      if h : a = b then isTrue (by rw [h]) else isFalse (fun h1 => h (by cases h1; rfl))
  | Except.ok _, Except.error _ => isFalse (fun h => by cases h)
  | Except.error _, Except.ok _ => isFalse (fun h => by cases h)

/-! ## Stream readers

`schema.StreamReader[T]` belongs to the eino library. It is embedded as a recording test
double: a finite script of receive results (a fragment, or a non-EOF error) followed by
end-of-sequence, together with the fragments handed out so far and the number of `Close`
calls made on it. -/

/-- The state of a `schema.StreamReader[T]`: the receive results still to come, the fragments
already handed to the consumer (oldest first) and the count of `Close()` calls. -/
structure StreamReader (α : Type) where
  pending : List (Except String α)
  delivered : List α
  closeCalls : Nat
deriving DecidableEq, Repr

/-- A fresh stream over a script of receive results. -/
def StreamReader.fresh {α : Type} (script : List (Except String α)) : StreamReader α :=
  { pending := script, delivered := [], closeCalls := 0 }

/-- The call `sr.Recv()`: hands out the next receive result; once the script is exhausted it
reports `io.EOF` and leaves the reader unchanged. -/
def StreamReader.Recv {α : Type} (sr : StreamReader α) : Except GoError α × StreamReader α :=
  match sr.pending with
  | [] => (Except.error GoError.EOF, sr)
  | Except.ok a :: rest =>
      (Except.ok a, { sr with pending := rest, delivered := sr.delivered ++ [a] })
  | Except.error e :: rest =>
      (Except.error (GoError.other e), { sr with pending := rest })

/-- The call `sr.Close()`: records one more close and touches nothing else. -/
def StreamReader.Close {α : Type} (sr : StreamReader α) : StreamReader α :=
  { sr with closeCalls := sr.closeCalls + 1 }

/-- The fragments of a script up to its end-of-sequence or its first receive error. -/
def fragmentsUpToEnd {α : Type} : List (Except String α) → List α
  | [] => []
  | Except.ok a :: rest => a :: fragmentsUpToEnd rest
  | Except.error _ :: _ => []

/-! ## `toolCallChecker` (react/react.go) -/

/-- The `for` loop of `toolCallChecker`, with an iteration budget. Each iteration calls
`sr.Recv()`; `io.EOF` breaks to the final `return false, nil`, another error returns
`false, err`, a message with `len(msg.ToolCalls) > 0` returns `true, nil`. The result is the
returned pair (the flag, the error or `none` for `nil`) with the reader as the loop left it. -/
def toolCallCheckerLoop :
    Nat → StreamReader Message → Option ((Bool × Option GoError) × StreamReader Message)
  | 0, _ => none
  | fuel + 1, sr =>
      match sr.Recv with
      | (Except.error GoError.EOF, sr1) => some ((false, none), sr1)
      | (Except.error err, sr1) => some ((false, some err), sr1)
      | (Except.ok msg, sr1) =>
          if msg.ToolCalls.length > 0 then some ((true, none), sr1)
          else toolCallCheckerLoop fuel sr1

/-- The function `toolCallChecker`: the loop, then the deferred `sr.Close()` on whichever
path the loop returned. One iteration is budgeted per pending receive result, plus the one
that reads end-of-sequence. -/
def toolCallChecker (sr : StreamReader Message) :
    Option ((Bool × Option GoError) × StreamReader Message) :=
  match toolCallCheckerLoop (sr.pending.length + 1) sr with
  | none => none
  | some (ret, sr1) => some (ret, sr1.Close)

/-- What `toolCallChecker` returns, read off the script: the first receive result that is
not a plain message decides. -/
def toolCallVerdict : List (Except String Message) → Bool × Option GoError
  | [] => (false, none)
  | Except.ok msg :: rest =>
      if msg.ToolCalls.length > 0 then (true, none) else toolCallVerdict rest
  | Except.error e :: _ => (false, some (GoError.other e))

/-- The fragments `toolCallChecker` receives, read off the script: every plain message of
the leading run, and the first tool-call message when it ends the run. -/
def toolCallConsumed : List (Except String Message) → List Message
  | [] => []
  | Except.ok msg :: rest =>
      if msg.ToolCalls.length > 0 then [msg] else msg :: toolCallConsumed rest
  | Except.error _ :: _ => []

/-- The receive results left unread by `toolCallChecker`. -/
def toolCallLeft : List (Except String Message) → List (Except String Message)
  | [] => []
  | Except.ok msg :: rest =>
      if msg.ToolCalls.length > 0 then rest else toolCallLeft rest
  | Except.error _ :: rest => rest

/-! ## The two-model chat graph (two_model_chat/two_model_chat.go) -/

/-- Go's `int` on a 64-bit target: the value of an arithmetic result after two's-complement
wrap-around into `[-2^63, 2^63)`. -/
def wrapInt (x : Int) : Int :=
  (x + 9223372036854775808) % 18446744073709551616 - 9223372036854775808

/-- The largest Go `int`, `math.MaxInt64`. -/
def maxInt : Int := 9223372036854775807

/-- The smallest Go `int`, `math.MinInt64`. -/
def minInt : Int := -9223372036854775808

/-- The local `state` struct of `main`: the round counter and the accumulated history. -/
structure state where
  currentRound : Int
  msgs : List Message
deriving DecidableEq, Repr

/-- The state generator passed to `compose.WithGenLocalState`: `&state{}`. -/
def genLocalState : state :=
  { currentRound := 0, msgs := [] }

/-- The constant `compose.START` of the eino library. -/
def START : String := "start"

/-- The constant `compose.END` of the eino library. -/
def END : String := "end"

/-- The system prompt of the writer node. -/
def writerSystemMessage : Message :=
  SystemMessage "you are a writer who writes jokes and revise it according to the critic's feedback. Prepend your joke with your name which is \"writer: \""

/-- The system prompt of the critic node. -/
def criticSystemMessage : Message :=
  SystemMessage "you are a critic who ONLY gives feedback about jokes, emphasizing on funniness. Prepend your feedback with your name which is \"critic: \""

/-- The type of a state pre-handler: the rewritten input or an error, and the state as the
handler left it. -/
abbrev StatePreHandler := List Message → state → Except GoError (List Message) × state

/-- The state pre-handler of the writer node: `state.currentRound++`, then the input is
appended to `state.msgs`, then the system message is put in front of the whole history. -/
def writerPreHandler : StatePreHandler := fun input st =>
  let st1 : state := { st with currentRound := wrapInt (st.currentRound + 1) }
  let st2 : state := { st1 with msgs := st1.msgs ++ input }
  (Except.ok ([writerSystemMessage] ++ st2.msgs), st2)

/-- The state pre-handler of the critic node: the input is appended to `state.msgs`, then
the system message is put in front of the whole history. -/
def criticPreHandler : StatePreHandler := fun input st =>
  let st1 : state := { st with msgs := st.msgs ++ input }
  (Except.ok ([criticSystemMessage] ++ st1.msgs), st1)

/-- The call `compose.ProcessState(ctx, handler)`: runs the handler on the state of the
current run and returns the handler's error. -/
def ProcessState {ρ : Type} (handler : state → ρ → Option GoError × state × ρ) (st : state)
    (r : ρ) : Option GoError × state × ρ :=
  handler st r

/-- The type of a stream branch condition: the chosen node name, its error, and the stream
and the state as the condition left them. -/
abbrev StreamBranchCondition :=
  StreamReader Message → state → (String × Option GoError) × StreamReader Message × state

/-- The branch condition registered on the writer node: `input.Close()`, then `result`
starts as "toList1" and the state handler overwrites it with `compose.END` when
`state.currentRound >= 3`. -/
def writerBranchCondition : StreamBranchCondition := fun input st =>
  let input1 := input.Close
  let result : String := "toList1"
  let (err, st1, result1) :=
    ProcessState (fun (s : state) (res : String) =>
      let res1 := if s.currentRound ≥ 3 then END else res
      (none, s, res1)) st result
  ((result1, err), input1, st1)

/-- The end-node set given to `compose.NewStreamGraphBranch` for the writer branch:
the Go map literal, as its entries. -/
def writerBranchEndNodes : List (String × Bool) :=
  [(END, true), ("toList1", true)]

/-- What a node computes once its pre-handler has run. -/
inductive NodeBody
  | chatModel
  | toList
deriving DecidableEq, Repr

/-- A registered graph node: its key, what it runs, its state pre-handler if any and the
name given with `compose.WithNodeName`. -/
structure Node where
  key : String
  body : NodeBody
  preHandler : Option StatePreHandler
  nodeName : Option String

/-- A registered branch: the condition and the declared end nodes. -/
structure GraphBranch where
  condition : StreamBranchCondition
  endNodes : List (String × Bool)

/-- The registry `compose.NewGraph` starts empty and the `Add...` calls fill. -/
structure Graph where
  nodes : List Node
  edges : List (String × String)
  branches : List (String × GraphBranch)

/-- The result of `compose.NewGraph`. -/
def NewGraph : Graph :=
  { nodes := [], edges := [], branches := [] }

/-- The call `g.AddChatModelNode(key, llm, compose.WithStatePreHandler(pre),
compose.WithNodeName(name))`. -/
def Graph.AddChatModelNode (g : Graph) (key : String) (pre : StatePreHandler)
    (name : String) : Graph :=
  { g with nodes := g.nodes ++
      [{ key := key, body := NodeBody.chatModel, preHandler := some pre,
         nodeName := some name }] }

/-- The call `g.AddLambdaNode(key, compose.ToList[*schema.Message]())`. -/
def Graph.AddLambdaNode (g : Graph) (key : String) : Graph :=
  { g with nodes := g.nodes ++
      [{ key := key, body := NodeBody.toList, preHandler := none, nodeName := none }] }

/-- The call `g.AddEdge(startNode, endNode)`. -/
def Graph.AddEdge (g : Graph) (startNode endNode : String) : Graph :=
  { g with edges := g.edges ++ [(startNode, endNode)] }

/-- The call `g.AddBranch(startNode, compose.NewStreamGraphBranch(condition, endNodes))`. -/
def Graph.AddBranch (g : Graph) (startNode : String) (condition : StreamBranchCondition)
    (endNodes : List (String × Bool)) : Graph :=
  { g with branches := g.branches ++
      [(startNode, { condition := condition, endNodes := endNodes })] }

/-- The graph `main` builds, call by call in source order. -/
def twoModelChatGraph : Graph :=
  let g := NewGraph
  let g := g.AddChatModelNode "writer" writerPreHandler "writer"
  let g := g.AddChatModelNode "critic" criticPreHandler "critic"
  let g := g.AddLambdaNode "toList1"
  let g := g.AddLambdaNode "toList2"
  let g := g.AddEdge START "writer"
  let g := g.AddBranch "writer" writerBranchCondition writerBranchEndNodes
  let g := g.AddEdge "toList1" "critic"
  let g := g.AddEdge "critic" "toList2"
  let g := g.AddEdge "toList2" "writer"
  g

/-! ## The runner

The graph runner belongs to the eino library (`compose.Graph.Compile`, `Runnable.Stream`).
Its walk is embedded from section 4.5 of the specification. -/

/-- A value travelling along an edge: a message list (the input of a chat-model node) or a
single message (its output). -/
inductive Value
  | msgs (l : List Message)
  | msg (m : Message)
deriving DecidableEq, Repr

/-- The model backend, an external collaborator: the reply (or the failure) of the call
made as the `k`-th node invocation of the run on a given history, and the fragments in
which a reply is streamed. -/
structure Backend where
  generate : Nat → List Message → Except GoError Message
  chunks : Message → List (Except String Message)

/-- The failures of a run, after section 7 of the specification; `TypeMismatch` stands for
wirings the Go type checker and `Compile` reject. -/
inductive RunError
  | GraphInvalid
  | TypeMismatch
  | NodeError (err : GoError)
  | BranchError (err : GoError)
  | BranchContractViolation (name : String)
deriving DecidableEq, Repr

/-- The per-run data of a runner: the walk cursor, the input waiting for the node at the
cursor, the run state, the keys of the nodes invoked so far (oldest first) and the streams
handed to branch conditions, as the conditions left them. -/
structure Walk where
  cursor : String
  input : Value
  st : state
  visited : List String
  handed : List (StreamReader Message)
deriving DecidableEq, Repr

/-- The outcome of one step of the walk. -/
inductive StepResult
  | Running (w : Walk)
  | Completed (output : Value) (w : Walk)
  | Failed (err : RunError) (w : Walk)
deriving DecidableEq, Repr

/-- The outcome of a whole run. -/
inductive RunResult
  | Completed (output : Value) (w : Walk)
  | Failed (err : RunError) (w : Walk)
deriving DecidableEq, Repr

/-- The node registered under a key. -/
def Graph.findNode (g : Graph) (key : String) : Option Node :=
  g.nodes.find? (fun n => n.key == key)

/-- The branch registered on a node. -/
def Graph.findBranch (g : Graph) (key : String) : Option GraphBranch :=
  (g.branches.find? (fun b => b.1 == key)).map (fun b => b.2)

/-- The target of the static edge leaving a node. -/
def Graph.findEdge (g : Graph) (key : String) : Option String :=
  (g.edges.find? (fun e => e.1 == key)).map (fun e => e.2)

/-- Membership in a declared end-node set (a Go `map[string]bool`). -/
def isEndNode (endNodes : List (String × Bool)) (name : String) : Bool :=
  endNodes.any (fun e => e.1 == name && e.2)

/-- Modelled from the spec: step 1 of the transition rule of section 4.5, the pre-handler
of the node is run on the current input and the run state. -/
def Node.runPreHandler (n : Node) (input : Value) (st : state) :
    Except RunError (Value × state) :=
  match n.preHandler, input with
  | none, v => Except.ok (v, st)
  | some h, Value.msgs l =>
      match h l st with
      | (Except.ok l1, st1) => Except.ok (Value.msgs l1, st1)
      | (Except.error e, _) => Except.error (RunError.NodeError e)
  | some _, Value.msg _ => Except.error RunError.TypeMismatch

/-- Modelled from the spec: step 2 of the transition rule of section 4.5, the node is
invoked. A chat-model node asks the backend, `compose.ToList` wraps its input in a
one-element list. -/
def Node.invoke (n : Node) (be : Backend) (callIndex : Nat) (input : Value) :
    Except RunError Value :=
  match n.body, input with
  | NodeBody.chatModel, Value.msgs l =>
      match be.generate callIndex l with
      | Except.ok m => Except.ok (Value.msg m)
      | Except.error e => Except.error (RunError.NodeError e)
  | NodeBody.toList, Value.msg m => Except.ok (Value.msgs [m])
  | _, _ => Except.error RunError.TypeMismatch

/-- Modelled from the spec: steps 3 and 4 of the transition rule of section 4.5, the next
node name. A branch takes precedence over a static edge; its condition consumes the output
stream of the node and its answer is validated against the declared end nodes. -/
def Runner.next (g : Graph) (be : Backend) (w : Walk) (output : Value) :
    Except RunError (String × Walk) :=
  match g.findBranch w.cursor with
  | some b =>
      match output with
      | Value.msg m =>
          match b.condition (StreamReader.fresh (be.chunks m)) w.st with
          | ((name, none), sr, st1) =>
              let w1 : Walk := { w with st := st1, handed := w.handed ++ [sr] }
              if isEndNode b.endNodes name then Except.ok (name, w1)
              else Except.error (RunError.BranchContractViolation name)
          | ((_, some e), _, _) => Except.error (RunError.BranchError e)
      | Value.msgs _ => Except.error RunError.TypeMismatch
  | none =>
      match g.findEdge w.cursor with
      | some target => Except.ok (target, w)
      | none => Except.error RunError.GraphInvalid

/-- Modelled from the spec: the transition rule of section 4.5 for the node at the cursor:
pre-handler, invocation, next-node resolution, then completion at the terminal marker or
advance with the node's output as the next input. -/
def Runner.step (g : Graph) (be : Backend) (w : Walk) : StepResult :=
  match g.findNode w.cursor with
  | none => StepResult.Failed RunError.GraphInvalid w
  | some n =>
      match n.runPreHandler w.input w.st with
      | Except.error e => StepResult.Failed e w
      | Except.ok (input1, st1) =>
          let w1 : Walk := { w with st := st1, visited := w.visited ++ [n.key] }
          match n.invoke be w.visited.length input1 with
          | Except.error e => StepResult.Failed e w1
          | Except.ok output =>
              match Runner.next g be w1 output with
              | Except.error e => StepResult.Failed e w1
              | Except.ok (name, w2) =>
                  if name == END then StepResult.Completed output w2
                  else StepResult.Running { w2 with cursor := name, input := output }

/-- Modelled from the spec: the walk of section 4.5, step after step until the run is
Completed or Failed; `none` when the step budget runs out first. -/
def Runner.walk (g : Graph) (be : Backend) : Nat → Walk → Option RunResult
  | 0, _ => none
  | fuel + 1, w =>
      match Runner.step g be w with
      | StepResult.Running w1 => Runner.walk g be fuel w1
      | StepResult.Completed output w1 => some (RunResult.Completed output w1)
      | StepResult.Failed e w1 => some (RunResult.Failed e w1)

/-- Modelled from the spec: the call `runner.Stream(ctx, input)`: a fresh run state, the
walk starting at the node the edge from `compose.START` points to. -/
def Runner.Stream (g : Graph) (genState : state) (be : Backend) (fuel : Nat)
    (input : List Message) : Option RunResult :=
  match g.findEdge START with
  | none =>
      some (RunResult.Failed RunError.GraphInvalid
        { cursor := START, input := Value.msgs input, st := genState, visited := [],
          handed := [] })
  | some first =>
      Runner.walk g be fuel
        { cursor := first, input := Value.msgs input, st := genState, visited := [],
          handed := [] }

/-! ## Observer bridges and result loops -/

/-- One observable effect of a bridge or of a result loop, in program order: a line printed
with `fmt`, a string sent on the channel `s.ch`, or a call of a function of the repository's
`internal/logs` package (kept by function name and formatted text). -/
inductive Output
  | print (text : String)
  | send (text : String)
  | log (fn : String) (text : String)
deriving DecidableEq, Repr

/-- How a function body stops: it returns, a panic leaves it, or the process exits. -/
inductive Exit
  | returned
  | panicking (value : String)
  | processExit (code : Nat)
deriving DecidableEq, Repr

/-- The record of one run of a stream consumer: its effects, the stream as it left it and
the way it stopped. -/
structure BridgeRun (α : Type) where
  emitted : List Output
  stream : StreamReader α
  exit : Exit
deriving DecidableEq, Repr

/-- The `callbacks.RunInfo` record, reduced to the field the logger reads. -/
structure RunInfo where
  Name : String
deriving DecidableEq, Repr

/-- The panic value of a nil pointer dereference. -/
def nilDereference : String :=
  "runtime error: invalid memory address or nil pointer dereference"

/-- The local `graphInfoName` of `OnEndWithStreamOutput`. -/
def graphInfoName : String := "PregelGraph"

/-- The `for` loop of the goroutine started by `LoggerCallback.OnEndWithStreamOutput`, with
an iteration budget. `io.EOF` breaks, another receive error and a `json.Marshal` error are
printed and return; `info.Name` dereferences `info`, a pointer that may be nil. -/
def loggerLoop {α : Type} (marshal : α → Except GoError String) (info : Option RunInfo) :
    Nat → StreamReader α → List Output → Option (BridgeRun α)
  | 0, _, _ => none
  | fuel + 1, output, out =>
      match output.Recv with
      | (Except.error GoError.EOF, output1) =>
          some { emitted := out, stream := output1, exit := Exit.returned }
      | (Except.error err, output1) =>
          some { emitted := out ++ [Output.print ("internal error: " ++ err.Error ++ "\n")],
                 stream := output1, exit := Exit.returned }
      | (Except.ok frame, output1) =>
          match marshal frame with
          | Except.error err =>
              some { emitted := out ++ [Output.print ("internal error: " ++ err.Error ++ "\n")],
                     stream := output1, exit := Exit.returned }
          | Except.ok s =>
              match info with
              | none =>
                  some { emitted := out, stream := output1,
                         exit := Exit.panicking nilDereference }
              | some i =>
                  if i.Name == graphInfoName then
                    loggerLoop marshal info fuel output1
                      (out ++ [Output.print (i.Name ++ ": " ++ s ++ "\n")])
                  else loggerLoop marshal info fuel output1 out

/-- The goroutine started by `LoggerCallback.OnEndWithStreamOutput`: the banner, the loop,
then the deferred calls in reverse order of registration: `output.Close()` first, then the
handler that recovers a panic and prints it. `json.Marshal` is a parameter. -/
def LoggerCallback.OnEndWithStreamOutput {α : Type} (marshal : α → Except GoError String)
    (info : Option RunInfo) (output : StreamReader α) : Option (BridgeRun α) :=
  match loggerLoop marshal info (output.pending.length + 1) output
      [Output.print "=========[OnEndStream]=========\n"] with
  | none => none
  | some r =>
      let r1 : BridgeRun α := { r with stream := r.stream.Close }
      match r1.exit with
      | Exit.panicking v =>
          some { r1 with emitted := r1.emitted ++
                           [Output.print ("[OnEndStream] panic err: " ++ v ++ "\n")],
                         exit := Exit.returned }
      | _ => some r1

/-- The `model.CallbackOutput` record, reduced to the field the bridge reads. -/
structure CallbackOutput where
  Message : Message
deriving DecidableEq, Repr

/-- What a call of `logs.Fatalf` does to its caller once the text is logged. The function
lives in the repository's `internal/logs` package; its effect is a parameter. -/
inductive FatalfEffect
  | exits
  | panics
  | returns
deriving DecidableEq, Repr

/-- The `for` loop of `streamResponse.OnStreamStart`, with an iteration budget. `io.EOF`
breaks; another receive error is passed to `logs.Fatalf`, and should that call return, the
send that follows dereferences the nil `frame`. -/
def onStreamStartLoop (fatalf : FatalfEffect) :
    Nat → StreamReader CallbackOutput → List Output → Option (BridgeRun CallbackOutput)
  | 0, _, _ => none
  | fuel + 1, input, out =>
      match input.Recv with
      | (Except.error GoError.EOF, input1) =>
          some { emitted := out, stream := input1, exit := Exit.returned }
      | (Except.error err, input1) =>
          let text := "internal error: " ++ err.Error ++ "\n"
          let out1 := out ++ [Output.log "Fatalf" text]
          match fatalf with
          | FatalfEffect.exits =>
              some { emitted := out1, stream := input1, exit := Exit.processExit 1 }
          | FatalfEffect.panics =>
              some { emitted := out1, stream := input1, exit := Exit.panicking text }
          | FatalfEffect.returns =>
              some { emitted := out1, stream := input1,
                     exit := Exit.panicking nilDereference }
      | (Except.ok frame, input1) =>
          onStreamStartLoop fatalf fuel input1 (out ++ [Output.send frame.Message.Content])

/-- The method `streamResponse.OnStreamStart`: the separator is sent, the loop runs, and
the deferred `input.Close()` runs when the function returns or panics; a process exit runs
no deferred call. -/
def streamResponse.OnStreamStart (fatalf : FatalfEffect)
    (input : StreamReader CallbackOutput) : Option (BridgeRun CallbackOutput) :=
  match onStreamStartLoop fatalf (input.pending.length + 1) input
      [Output.send "\n=======\n"] with
  | none => none
  | some r =>
      match r.exit with
      | Exit.processExit _ => some r
      | _ => some { r with stream := r.stream.Close }

/-- The result loop of `main` in react/react.go, with an iteration budget: `io.EOF` breaks
to the closing log line, another error is logged and returns, a message is printed token by
token. The `logs` calls are recorded and taken to return. -/
def reactMainLoop :
    Nat → StreamReader Message → List Output → Option (BridgeRun Message)
  | 0, _, _ => none
  | fuel + 1, sr, out =>
      match sr.Recv with
      | (Except.error GoError.EOF, sr1) =>
          some { emitted := out ++ [Output.log "Infof" "\n\n===== finished =====\n"],
                 stream := sr1, exit := Exit.returned }
      | (Except.error err, sr1) =>
          some { emitted := out ++ [Output.log "Infof" ("failed to recv: " ++ err.Error)],
                 stream := sr1, exit := Exit.returned }
      | (Except.ok msg, sr1) =>
          reactMainLoop fuel sr1 (out ++ [Output.log "Tokenf" msg.Content])

/-- The tail of `main` in react/react.go once `ragent.Stream` has returned the stream:
`defer sr.Close()`, the opening log line, the loop; the deferred close runs on both ways
out of the loop. -/
def reactMainConsume (sr : StreamReader Message) : Option (BridgeRun Message) :=
  match reactMainLoop (sr.pending.length + 1) sr
      [Output.log "Infof" "\n\n===== start streaming =====\n\n"] with
  | none => none
  | some r => some { r with stream := r.stream.Close }

/-- The result loop of `main` in two_model_chat/two_model_chat.go, with an iteration
budget: only `io.EOF` leaves the loop, after `close(sResponse.ch)`; any other receive
result, error or message, is dropped and the loop goes on. The flag tells whether the
channel was closed. -/
def chatMainLoop : Nat → StreamReader Message → Option (StreamReader Message × Bool)
  | 0, _ => none
  | fuel + 1, outStream =>
      match outStream.Recv with
      | (Except.error GoError.EOF, outStream1) => some (outStream1, true)
      | (_, outStream1) => chatMainLoop fuel outStream1

/-- The tail of `main` in two_model_chat/two_model_chat.go once `runner.Stream` has
returned the stream: the loop, then `main` returns. -/
def chatMainConsume (outStream : StreamReader Message) :
    Option (StreamReader Message × Bool) :=
  chatMainLoop (outStream.pending.length + 1) outStream

/-! ## The fake restaurant service (react/tools/service.go) -/

/-- The struct `restaurantDishDataItem`. -/
structure restaurantDishDataItem where
  Name : String
  Desc : String
  Price : Int
  Score : Int
deriving DecidableEq, Repr

/-- The struct `restaurantDataItem`. -/
structure restaurantDataItem where
  ID : String
  Name : String
  Desc : String
  Place : String
  Score : Int
  Dishes : List restaurantDishDataItem
deriving DecidableEq, Repr

/-- The result record `Dish` of the tools package, with the four fields `QueryDishes`
fills. -/
structure Dish where
  Name : String
  Desc : String
  Price : Int
  Score : Int
deriving DecidableEq, Repr

/-- The request record `QueryDishesParam` of the tools package. -/
structure QueryDishesParam where
  RestaurantID : String
  Topn : Int
deriving DecidableEq, Repr

/-- A Go map as its entries, one per key; `range` visits them in the order of the list. -/
abbrev GoMap (ν : Type) := List (String × ν)

/-- The lookup `v, ok := m[k]`. -/
def GoMap.get {ν : Type} (m : GoMap ν) (k : String) : Option ν :=
  (m.find? (fun e => e.1 == k)).map (fun e => e.2)

/-- The assignment `m[k] = v`: the entry of `k` is replaced when there is one, added
otherwise. -/
def GoMap.set {ν : Type} (m : GoMap ν) (k : String) (v : ν) : GoMap ν :=
  if m.any (fun e => e.1 == k) then m.map (fun e => if e.1 == k then (k, v) else e)
  else m ++ [(k, v)]

/-- The struct `restaurantDatabase`. -/
structure restaurantDatabase where
  restaurantByID : GoMap restaurantDataItem
  restaurantsByLocation : GoMap (List restaurantDataItem)
deriving DecidableEq, Repr

/-- The package variable `database` before `init` runs: two empty maps. -/
def database0 : restaurantDatabase :=
  { restaurantByID := [], restaurantsByLocation := [] }

/-- The function `getData`: the map literal, entry by entry in source order. -/
def getData : GoMap (List restaurantDataItem) :=
  [ ("Beijing",
      [ { ID := "1001", Name := "Cloud Edge Restaurant", Place := "Beijing",
          Desc := "This is Cloud Edge Restaurant in Beijing, with diverse flavors",
          Score := 3,
          Dishes :=
            [ { Name := "Braised Pork", Desc := "A piece of braised pork",
                Price := 20, Score := 8 },
              { Name := "Spring Water Beef", Desc := "Lots of boiled beef",
                Price := 50, Score := 8 },
              { Name := "Stir-fried Pumpkin", Desc := "Mushy stir-fried pumpkin",
                Price := 5, Score := 5 },
              { Name := "Korean Spicy Cabbage",
                Desc := "This is blessed spicy cabbage, very delicious",
                Price := 20, Score := 9 },
              { Name := "Hot and Sour Shredded Potatoes",
                Desc := "Hot and sour shredded potatoes", Price := 10, Score := 9 },
              { Name := "Hot and Sour Noodles", Desc := "Hot and sour noodles",
                Price := 5, Score := 0 } ] },
        { ID := "1002", Name := "Jufu Mansion Restaurant", Place := "Beijing",
          Desc := "Jufu Mansion Restaurant in Beijing, many food stalls waiting for you to explore",
          Score := 5,
          Dishes :=
            [ { Name := "Braised Spare Ribs", Desc := "Pieces of spare ribs",
                Price := 43, Score := 7 },
              { Name := "Big Knife Twice-Cooked Pork",
                Desc := "Classic twice-cooked pork, large pieces", Price := 40, Score := 8 },
              { Name := "Fiery Kiss", Desc := "Cold pig snout, spicy but not greasy",
                Price := 60, Score := 9 },
              { Name := "Spicy Preserved Egg",
                Desc := "Ground chili with preserved egg, perfect with rice",
                Price := 15, Score := 8 } ] },
        { ID := "1003", Name := "Flower Shadow Restaurant", Place := "Shanghai",
          Desc := "Very luxurious Flower Shadow Restaurant, delicious and affordable",
          Score := 10,
          Dishes :=
            [ { Name := "Super Braised Pork", Desc := "A very glossy piece of braised pork",
                Price := 30, Score := 9 },
              { Name := "Super Beijing Roast Duck", Desc := "Rolled roast duck with sauce",
                Price := 60, Score := 9 },
              { Name := "Super Chinese Cabbage",
                Desc := "Just watery stir-fried Chinese cabbage", Price := 8, Score := 8 } ] } ]),
    ("Shanghai",
      [ { ID := "2001", Name := "Hongbin Elegant Restaurant", Place := "Shanghai",
          Desc := "This is Hongbin Elegant Restaurant in Shanghai, with diverse flavors",
          Score := 3,
          Dishes :=
            [ { Name := "Sweet and Sour Tomatoes", Desc := "Sweet and sour tomatoes",
                Price := 80, Score := 5 },
              { Name := "Candied Fish",
                Desc := "Fish with lots of sugar, as famous as vinegar fish",
                Price := 99, Score := 6 } ] },
        { ID := "2002", Name := "Food Drunk Gang Base",
          Desc := "Focused on sweet and sour flavors, worth having",
          Place := "Shanghai", Score := 5,
          Dishes :=
            [ { Name := "Sweet and Sour Watermelon", Desc := "Sweet and sour flavor, crispy",
                Price := 69, Score := 7 },
              { Name := "Sweet and Sour Big Bun", Desc := "As famous as Tianjin Goubuli",
                Price := 99, Score := 4 } ] },
        { ID := "2010", Name := "So Good You\x27ll Stamp Your Feet Restaurant",
          Desc := "This is the So Good You\x27ll Stamp Your Feet Restaurant, hidden in a place you can\x27t find, waiting for destined customers to explore. Mainly Sichuan cuisine, with generous amounts of chili and Sichuan pepper.",
          Place := "It\x27s where it isn\x27t", Score := 10,
          Dishes :=
            [ { Name := "Unbeatable Spicy Shrimp", Desc := "Extremely fragrant and aromatic",
                Price := 199, Score := 9 },
              { Name := "Super Hot Pot",
                Desc := "Hot pot with lots of chili and rice wine, for cooking things like apples and bananas",
                Price := 198, Score := 9 } ] } ]) ]

/-- The function `init`: for every location of the data, in the order `range` happens to
visit the map, and every restaurant of the location in slice order, the restaurant is
stored under its id and appended to the list of its location. The visiting order is the
order of the entries of `restData`. -/
def init (restData : GoMap (List restaurantDataItem)) : restaurantDatabase :=
  restData.foldl (fun db entry =>
    entry.2.foldl (fun (db : restaurantDatabase) rest =>
      { restaurantByID := db.restaurantByID.set rest.ID rest,
        restaurantsByLocation :=
          db.restaurantsByLocation.set entry.1
            ((db.restaurantsByLocation.get entry.1).getD [] ++ [rest]) }) db) database0

/-- The copy loop `for i := 0; i < topn && i < len(xs); i++ { res = append(res, xs[i]) }`,
entered with the index `i`, the slice `xs[i:]` still ahead and the result so far. -/
def topnLoop {α : Type} (topn : Int) : Nat → List α → List α → List α
  | _, [], res => res
  | i, x :: ahead, res =>
      if (i : Int) < topn then topnLoop topn (i + 1) ahead (res ++ [x]) else res

/-- The method `restaurantDatabase.GetDishesByRestaurant`. -/
def restaurantDatabase.GetDishesByRestaurant (rd : restaurantDatabase)
    (restaurantID : String) (topn : Int) : Except GoError (List restaurantDishDataItem) :=
  match rd.restaurantByID.get restaurantID with
  | none => Except.error (GoError.other ("restaurant " ++ restaurantID ++ " not found"))
  | some rest => Except.ok (topnLoop topn 0 rest.Dishes [])

/-- The struct `fakeService`. -/
structure fakeService where
  repo : restaurantDatabase
deriving DecidableEq, Repr

/-- The method `fakeService.QueryDishes`: the repository error is passed on; otherwise
every dish is copied, field by field, into the result. -/
def fakeService.QueryDishes (ft : fakeService) (param : QueryDishesParam) :
    Except GoError (List Dish) :=
  match ft.repo.GetDishesByRestaurant param.RestaurantID param.Topn with
  | Except.error err => Except.error err
  | Except.ok dishes =>
      Except.ok (dishes.foldl (fun res dish =>
        res ++ [{ Name := dish.Name, Desc := dish.Desc, Price := dish.Price,
                  Score := dish.Score }]) [])

/-- The package variable `restService` once `init` has run over the data in the given
visiting order. -/
def restService (restData : GoMap (List restaurantDataItem)) : fakeService :=
  { repo := init restData }

/-- Every restaurant of the data, location after location. -/
def storedRestaurants : List restaurantDataItem :=
  getData.flatMap (fun entry => entry.2)

/-- The field-by-field copy of a stored dish into a `Dish`. -/
def Dish.ofItem (dish : restaurantDishDataItem) : Dish :=
  { Name := dish.Name, Desc := dish.Desc, Price := dish.Price, Score := dish.Score }

/-- The result record `Restaurant` of the tools package, with the four fields
`QueryRestaurants` fills. -/
structure Restaurant where
  ID : String
  Name : String
  Place : String
  Score : Int
deriving DecidableEq, Repr

/-- The request record `QueryRestaurantsParam` of the tools package. -/
structure QueryRestaurantsParam where
  Location : String
  Topn : Int
deriving DecidableEq, Repr

/-- Substring search on character lists: `sub` starts at some position of the first
list. -/
def containsChars : List Char → List Char → Bool
  | [], sub => sub.isEmpty
  | c :: rest, sub => sub.isPrefixOf (c :: rest) || containsChars rest sub

/-- The call `strings.Contains(s, substr)` of the Go standard library: `substr` occurs
within `s`; the empty string occurs in every string. -/
def stringsContains (s substr : String) : Bool :=
  containsChars s.data substr.data

/-- The `range` loop of `GetRestaurantsByLocation` over the entries still to visit: the
first visited location whose name contains the query or is contained in it decides, and
its restaurants go through the copy loop; with no entry left the lookup fails. -/
def getRestaurantsLoop (location : String) (topn : Int) :
    GoMap (List restaurantDataItem) → Except GoError (List restaurantDataItem)
  | [] => Except.error (GoError.other ("location " ++ location ++ " not found"))
  | (locationName, rests) :: ahead =>
      if stringsContains locationName location || stringsContains location locationName then
        Except.ok (topnLoop topn 0 rests [])
      else getRestaurantsLoop location topn ahead

/-- The method `restaurantDatabase.GetRestaurantsByLocation`. The order in which `range`
happens to visit `rd.restaurantsByLocation` is given by `rangeOrder`, which rearranges the
entries of the map. -/
def restaurantDatabase.GetRestaurantsByLocation (rd : restaurantDatabase)
    (rangeOrder : GoMap (List restaurantDataItem) → GoMap (List restaurantDataItem))
    (location : String) (topn : Int) : Except GoError (List restaurantDataItem) :=
  getRestaurantsLoop location topn (rangeOrder rd.restaurantsByLocation)

/-- The method `fakeService.QueryRestaurants`: the repository error is passed on; otherwise
every restaurant is copied into the result with its ID, Name, Place and Score. -/
def fakeService.QueryRestaurants (ft : fakeService)
    (rangeOrder : GoMap (List restaurantDataItem) → GoMap (List restaurantDataItem))
    (param : QueryRestaurantsParam) : Except GoError (List Restaurant) :=
  match ft.repo.GetRestaurantsByLocation rangeOrder param.Location param.Topn with
  | Except.error err => Except.error err
  | Except.ok rests =>
      Except.ok (rests.foldl (fun res rest =>
        res ++ [{ ID := rest.ID, Name := rest.Name, Place := rest.Place,
                  Score := rest.Score }]) [])

/-- The copy of a stored restaurant into a `Restaurant`. -/
def Restaurant.ofItem (rest : restaurantDataItem) : Restaurant :=
  { ID := rest.ID, Name := rest.Name, Place := rest.Place, Score := rest.Score }

/-- A stored location name matches a query when it contains the query or is contained in
it: the test of `GetRestaurantsByLocation`. -/
def locationMatches (locationName location : String) : Bool :=
  stringsContains locationName location || stringsContains location locationName

/-! ## Sample inputs -/

/-- A backend that always succeeds: it answers every history with the same joke, streamed
as a single fragment. -/
def jokeBackend : Backend :=
  { generate := fun _ _ =>
      Except.ok { Role := RoleType.Assistant, Content := "writer: a joke", ToolCalls := [] },
    chunks := fun m => [Except.ok m] }

/-- A message that carries one tool call. -/
def toolCallMessage : Message :=
  { Role := RoleType.Assistant, Content := "",
    ToolCalls := [{ ID := "call-1", Name := "query_restaurants", Arguments := "" }] }

/-- A message without tool calls. -/
def plainMessage : Message :=
  { Role := RoleType.Assistant, Content := "hello", ToolCalls := [] }

/-! # Properties -/

/-! ## One step of the walk at each node of the two-model chat graph -/

theorem step_writer (be : Backend) (w : Walk) (l : List Message) (m : Message)
    (hc : w.cursor = "writer") (hi : w.input = Value.msgs l)
    (hg : be.generate w.visited.length (writerSystemMessage :: (w.st.msgs ++ l))
      = Except.ok m) :
    Runner.step twoModelChatGraph be w =
      let st1 : state :=
        { currentRound := wrapInt (w.st.currentRound + 1), msgs := w.st.msgs ++ l }
      let w1 : Walk :=
        { w with st := st1, visited := w.visited ++ ["writer"],
                 handed := w.handed ++ [(StreamReader.fresh (be.chunks m)).Close] }
      if 3 ≤ wrapInt (w.st.currentRound + 1) then StepResult.Completed (Value.msg m) w1
      else StepResult.Running { w1 with cursor := "toList1", input := Value.msg m } := by
  simp only [Runner.step, twoModelChatGraph, NewGraph, Graph.AddChatModelNode,
    Graph.AddLambdaNode, Graph.AddEdge, Graph.AddBranch, Graph.findNode, hc, hi]
  simp [Node.runPreHandler, writerPreHandler, Node.invoke, hg, Runner.next, Graph.findBranch,
    writerBranchCondition, ProcessState, writerBranchEndNodes, isEndNode, END]
  by_cases h3 : 3 ≤ wrapInt (w.st.currentRound + 1) <;> simp [h3]

theorem step_toList1 (be : Backend) (w : Walk) (m : Message)
    (hc : w.cursor = "toList1") (hi : w.input = Value.msg m) :
    Runner.step twoModelChatGraph be w =
      StepResult.Running { w with cursor := "critic", input := Value.msgs [m],
                                  visited := w.visited ++ ["toList1"] } := by
  simp only [Runner.step, twoModelChatGraph, NewGraph, Graph.AddChatModelNode,
    Graph.AddLambdaNode, Graph.AddEdge, Graph.AddBranch, Graph.findNode, hc, hi]
  simp [Node.runPreHandler, Node.invoke, Runner.next, Graph.findBranch, Graph.findEdge, END, START, List.find?]

theorem step_critic (be : Backend) (w : Walk) (l : List Message) (m : Message)
    (hc : w.cursor = "critic") (hi : w.input = Value.msgs l)
    (hg : be.generate w.visited.length (criticSystemMessage :: (w.st.msgs ++ l))
      = Except.ok m) :
    Runner.step twoModelChatGraph be w =
      StepResult.Running { w with cursor := "toList2", input := Value.msg m,
                                  st := { w.st with msgs := w.st.msgs ++ l },
                                  visited := w.visited ++ ["critic"] } := by
  simp only [Runner.step, twoModelChatGraph, NewGraph, Graph.AddChatModelNode,
    Graph.AddLambdaNode, Graph.AddEdge, Graph.AddBranch, Graph.findNode, hc, hi]
  simp [Node.runPreHandler, criticPreHandler, Node.invoke, hg, Runner.next, Graph.findBranch,
    Graph.findEdge, END, START, List.find?]

theorem step_toList2 (be : Backend) (w : Walk) (m : Message)
    (hc : w.cursor = "toList2") (hi : w.input = Value.msg m) :
    Runner.step twoModelChatGraph be w =
      StepResult.Running { w with cursor := "writer", input := Value.msgs [m],
                                  visited := w.visited ++ ["toList2"] } := by
  simp only [Runner.step, twoModelChatGraph, NewGraph, Graph.AddChatModelNode,
    Graph.AddLambdaNode, Graph.AddEdge, Graph.AddBranch, Graph.findNode, hc, hi]
  simp [Node.runPreHandler, Node.invoke, Runner.next, Graph.findBranch, Graph.findEdge, END, START, List.find?]

/-- One full round of the two-model chat graph: from the writer, when the branch does not
end the run, four steps lead back to the writer. -/
theorem walk_round (be : Backend) (hok : ∀ k l, ∃ m, be.generate k l = Except.ok m)
    (l : List Message) (st : state) (visited : List String)
    (handed : List (StreamReader Message))
    (hlt : ¬ 3 ≤ wrapInt (st.currentRound + 1)) :
    ∃ (m1 m2 : Message) (sr : StreamReader Message), ∀ fuel,
      Runner.walk twoModelChatGraph be (fuel + 4)
          { cursor := "writer", input := Value.msgs l, st := st, visited := visited,
            handed := handed }
        = Runner.walk twoModelChatGraph be fuel
          { cursor := "writer", input := Value.msgs [m2],
            st := { currentRound := wrapInt (st.currentRound + 1),
                    msgs := (st.msgs ++ l) ++ [m1] },
            visited := visited ++ ["writer", "toList1", "critic", "toList2"],
            handed := handed ++ [sr] } := by
  obtain ⟨m1, h1⟩ := hok visited.length (writerSystemMessage :: (st.msgs ++ l))
  obtain ⟨m2, h2⟩ := hok (visited ++ ["writer"] ++ ["toList1"]).length
    (criticSystemMessage :: ((st.msgs ++ l) ++ [m1]))
  refine ⟨m1, m2, (StreamReader.fresh (be.chunks m1)).Close, fun fuel => ?_⟩
  rw [Runner.walk, step_writer be _ l m1 rfl rfl h1]
  simp only [hlt, if_false]
  rw [Runner.walk, step_toList1 be _ m1 rfl rfl]
  simp only []
  rw [Runner.walk, step_critic be _ [m1] m2 rfl rfl h2]
  simp only []
  rw [Runner.walk, step_toList2 be _ m2 rfl rfl]
  simp

/-- The last visit of the writer: when the branch ends the run, one step completes it. -/
theorem walk_last (be : Backend) (hok : ∀ k l, ∃ m, be.generate k l = Except.ok m)
    (l : List Message) (st : state) (visited : List String)
    (handed : List (StreamReader Message))
    (hge : 3 ≤ wrapInt (st.currentRound + 1)) :
    ∃ (m : Message) (sr : StreamReader Message), ∀ fuel,
      Runner.walk twoModelChatGraph be (fuel + 1)
          { cursor := "writer", input := Value.msgs l, st := st, visited := visited,
            handed := handed }
        = some (RunResult.Completed (Value.msg m)
          { cursor := "writer", input := Value.msgs l,
            st := { currentRound := wrapInt (st.currentRound + 1), msgs := st.msgs ++ l },
            visited := visited ++ ["writer"],
            handed := handed ++ [sr] }) := by
  obtain ⟨m, h1⟩ := hok visited.length (writerSystemMessage :: (st.msgs ++ l))
  refine ⟨m, (StreamReader.fresh (be.chunks m)).Close, fun fuel => ?_⟩
  rw [Runner.walk, step_writer be _ l m rfl rfl h1]
  simp only [hge, if_true]

theorem wrapInt_small (x : Int) (h1 : -9223372036854775808 ≤ x)
    (h2 : x < 9223372036854775808) : wrapInt x = x := by
  unfold wrapInt
  rw [Int.emod_eq_of_lt (by omega) (by omega)]
  omega

/-! ## The stream-consuming predicates -/

theorem toolCallCheckerLoop_eq (fuel : Nat) (sr : StreamReader Message)
    (h : sr.pending.length < fuel) :
    toolCallCheckerLoop fuel sr =
      some (toolCallVerdict sr.pending,
        { pending := toolCallLeft sr.pending,
          delivered := sr.delivered ++ toolCallConsumed sr.pending,
          closeCalls := sr.closeCalls }) := by
  induction fuel generalizing sr with
  | zero => omega
  | succ n ih =>
    obtain ⟨pending, delivered, closeCalls⟩ := sr
    cases pending with
    | nil => simp [toolCallCheckerLoop, StreamReader.Recv, toolCallVerdict, toolCallLeft,
        toolCallConsumed]
    | cons x rest =>
      cases x with
      | error e => simp [toolCallCheckerLoop, StreamReader.Recv, toolCallVerdict, toolCallLeft,
          toolCallConsumed]
      | ok msg =>
        by_cases hm : 0 < msg.ToolCalls.length
        · simp [toolCallCheckerLoop, StreamReader.Recv, toolCallVerdict, toolCallLeft,
            toolCallConsumed, hm]
        · have hlen : rest.length < n := by simpa using h
          have := ih { pending := rest, delivered := delivered ++ [msg],
                       closeCalls := closeCalls } hlen
          simp [toolCallCheckerLoop, StreamReader.Recv, toolCallVerdict, toolCallLeft,
            toolCallConsumed, hm, this]

theorem toolCallChecker_eq (sr : StreamReader Message) :
    toolCallChecker sr =
      some (toolCallVerdict sr.pending,
        { pending := toolCallLeft sr.pending,
          delivered := sr.delivered ++ toolCallConsumed sr.pending,
          closeCalls := sr.closeCalls + 1 }) := by
  simp [toolCallChecker, toolCallCheckerLoop_eq _ sr (Nat.lt_succ_self _), StreamReader.Close]

/-- The verdict is `(true, nil)` exactly when a tool-call message comes before any error. -/
theorem toolCallVerdict_true_iff (script : List (Except String Message)) :
    toolCallVerdict script = (true, none) ↔
      ∃ (pre : List Message) (m : Message) (post : List (Except String Message)),
        script = pre.map Except.ok ++ Except.ok m :: post ∧ 0 < m.ToolCalls.length := by
  induction script with
  | nil =>
    simp only [toolCallVerdict]
    constructor
    · intro h; simp at h
    · rintro ⟨pre, m, post, h, _⟩; simp at h
  | cons x rest ih =>
    cases x with
    | error e =>
      simp only [toolCallVerdict]
      constructor
      · intro h; simp at h
      · rintro ⟨pre, m, post, h, _⟩
        cases pre with
        | nil => simp at h
        | cons a pre1 => simp at h
    | ok msg =>
      by_cases hm : 0 < msg.ToolCalls.length
      · simp only [toolCallVerdict, gt_iff_lt, hm, if_true, true_iff]
        exact ⟨[], msg, rest, by simp, hm⟩
      · simp only [toolCallVerdict, gt_iff_lt, hm, if_false]
        rw [ih]
        constructor
        · rintro ⟨pre, m, post, h, hpos⟩
          exact ⟨msg :: pre, m, post, by simp [h], hpos⟩
        · rintro ⟨pre, m, post, h, hpos⟩
          cases pre with
          | nil =>
            simp only [List.map_nil, List.nil_append, List.cons.injEq, Except.ok.injEq] at h
            exact absurd (h.1 ▸ hpos) hm
          | cons a pre1 =>
            simp only [List.map_cons, List.cons_append, List.cons.injEq] at h
            exact ⟨pre1, m, post, h.2, hpos⟩

/-- The verdict is `(false, e)` exactly when `e` is the first error and every message
before it is without tool calls. -/
theorem toolCallVerdict_error_iff (script : List (Except String Message)) (e : GoError) :
    toolCallVerdict script = (false, some e) ↔
      ∃ (pre : List Message) (text : String) (post : List (Except String Message)),
        e = GoError.other text ∧ script = pre.map Except.ok ++ Except.error text :: post ∧
          ∀ m ∈ pre, m.ToolCalls.length = 0 := by
  induction script with
  | nil =>
    simp only [toolCallVerdict]
    constructor
    · intro h; simp at h
    · rintro ⟨pre, text, post, _, h, _⟩; simp at h
  | cons x rest ih =>
    cases x with
    | error t =>
      simp only [toolCallVerdict]
      constructor
      · intro h
        simp only [Prod.mk.injEq, Option.some.injEq, true_and] at h
        exact ⟨[], t, rest, h.symm, by simp, by simp⟩
      · rintro ⟨pre, text, post, he, h, _⟩
        cases pre with
        | nil =>
          simp only [List.map_nil, List.nil_append, List.cons.injEq, Except.error.injEq] at h
          rw [he, h.1]
        | cons a pre1 => simp at h
    | ok msg =>
      by_cases hm : 0 < msg.ToolCalls.length
      · simp only [toolCallVerdict, gt_iff_lt, hm, if_true]
        constructor
        · intro h; simp at h
        · rintro ⟨pre, text, post, _, h, hall⟩
          cases pre with
          | nil => simp at h
          | cons a pre1 =>
            simp only [List.map_cons, List.cons_append, List.cons.injEq, Except.ok.injEq] at h
            have := hall a (by simp)
            rw [← h.1] at this
            omega
      · simp only [toolCallVerdict, gt_iff_lt, hm, if_false]
        rw [ih]
        constructor
        · rintro ⟨pre, text, post, he, h, hall⟩
          refine ⟨msg :: pre, text, post, he, by simp [h], ?_⟩
          intro m hmem
          rcases List.mem_cons.mp hmem with rfl | h1
          · omega
          · exact hall m h1
        · rintro ⟨pre, text, post, he, h, hall⟩
          cases pre with
          | nil => simp at h
          | cons a pre1 =>
            simp only [List.map_cons, List.cons_append, List.cons.injEq] at h
            exact ⟨pre1, text, post, he, h.2, fun m hmem => hall m (by simp [hmem])⟩

/-- The verdict is `(false, nil)` exactly when the script holds no error and no tool-call
message. -/
theorem toolCallVerdict_none_iff (script : List (Except String Message)) :
    toolCallVerdict script = (false, none) ↔
      ∀ x ∈ script, ∃ m : Message, x = Except.ok m ∧ m.ToolCalls.length = 0 := by
  induction script with
  | nil => simp [toolCallVerdict]
  | cons x rest ih =>
    cases x with
    | error t => simp [toolCallVerdict]
    | ok msg =>
      by_cases hm : 0 < msg.ToolCalls.length
      · simp only [toolCallVerdict, gt_iff_lt, hm, if_true]
        constructor
        · intro h; simp at h
        · intro h
          obtain ⟨m, h1, h2⟩ := h (Except.ok msg) (by simp)
          simp only [Except.ok.injEq] at h1
          rw [← h1] at h2
          omega
      · simp only [toolCallVerdict, gt_iff_lt, hm, if_false]
        rw [ih]
        constructor
        · intro h x hx
          rcases List.mem_cons.mp hx with rfl | h1
          · exact ⟨msg, rfl, by omega⟩
          · exact h x h1
        · intro h x hx
          exact h x (by simp [hx])

/-- The verdict always has one of the three shapes the source returns. -/
theorem toolCallVerdict_shape (script : List (Except String Message)) :
    toolCallVerdict script = (true, none) ∨
      (∃ e, toolCallVerdict script = (false, some e)) ∨
      toolCallVerdict script = (false, none) := by
  induction script with
  | nil => simp [toolCallVerdict]
  | cons x rest ih =>
    cases x with
    | error t => simp [toolCallVerdict]
    | ok msg =>
      by_cases hm : 0 < msg.ToolCalls.length
      · simp [toolCallVerdict, hm]
      · simpa [toolCallVerdict, hm] using ih

/-- The receive results `toolCallChecker` consumes: the leading run of messages without
tool calls, then the tool-call message, the error or the end-of-sequence that stops it. -/
theorem toolCall_consumed_cases (script : List (Except String Message)) :
    ∃ pre : List Message, (∀ m ∈ pre, m.ToolCalls.length = 0) ∧
      ((∃ (m : Message) (post : List (Except String Message)), 0 < m.ToolCalls.length ∧
          script = pre.map Except.ok ++ Except.ok m :: post ∧
          toolCallConsumed script = pre ++ [m] ∧ toolCallLeft script = post) ∨
       (∃ (text : String) (post : List (Except String Message)),
          script = pre.map Except.ok ++ Except.error text :: post ∧
          toolCallConsumed script = pre ∧ toolCallLeft script = post) ∨
       (script = pre.map Except.ok ∧ toolCallConsumed script = pre ∧
          toolCallLeft script = [])) := by
  induction script with
  | nil => exact ⟨[], by simp, Or.inr (Or.inr (by simp [toolCallConsumed, toolCallLeft]))⟩
  | cons x rest ih =>
    cases x with
    | error t =>
      exact ⟨[], by simp, Or.inr (Or.inl ⟨t, rest, by simp [toolCallConsumed, toolCallLeft]⟩)⟩
    | ok msg =>
      by_cases hm : 0 < msg.ToolCalls.length
      · exact ⟨[], by simp,
          Or.inl ⟨msg, rest, hm, by simp [toolCallConsumed, toolCallLeft, hm]⟩⟩
      · obtain ⟨pre, hall, hcases⟩ := ih
        refine ⟨msg :: pre, ?_, ?_⟩
        · intro m hmem
          rcases List.mem_cons.mp hmem with rfl | h1
          · omega
          · exact hall m h1
        · rcases hcases with ⟨m, post, hpos, h1, h2, h3⟩ | ⟨t, post, h1, h2, h3⟩ | ⟨h1, h2, h3⟩
          · exact Or.inl ⟨m, post, hpos, by simp [h1], by simp [toolCallConsumed, hm, h2],
              by simp [toolCallLeft, hm, h3]⟩
          · exact Or.inr (Or.inl ⟨t, post, by simp [h1], by simp [toolCallConsumed, hm, h2],
              by simp [toolCallLeft, hm, h3]⟩)
          · exact Or.inr (Or.inr ⟨by simp [h1], by simp [toolCallConsumed, hm, h2],
              by simp [toolCallLeft, hm, h3]⟩)

theorem fragmentsUpToEnd_map_ok {α : Type} (pre : List α) :
    fragmentsUpToEnd (pre.map (Except.ok : α → Except String α)) = pre := by
  induction pre with
  | nil => rfl
  | cons a rest ih => simp [fragmentsUpToEnd, ih]

theorem fragmentsUpToEnd_map_error {α : Type} (pre : List α) (text : String)
    (post : List (Except String α)) :
    fragmentsUpToEnd (pre.map Except.ok ++ Except.error text :: post) = pre := by
  induction pre with
  | nil => rfl
  | cons a rest ih => simp [fragmentsUpToEnd, ih]

theorem fragmentsUpToEnd_map_append {α : Type} (pre : List α)
    (rest : List (Except String α)) :
    fragmentsUpToEnd (pre.map Except.ok ++ rest) = pre ++ fragmentsUpToEnd rest := by
  induction pre with
  | nil => rfl
  | cons a tail ih => simp [fragmentsUpToEnd, ih]

/-! ## The claims -/

/-- Claim C1: in the graph wired by `main` of two_model_chat, for every input message list
and every backend whose calls all succeed, a run whose state starts with `currentRound = 0`
reaches `END` (Completed) for every step budget of at least nine, having invoked the nodes
writer, toList1, critic, toList2, writer, toList1, critic, toList2, writer: the writer
exactly three times, with `currentRound = 3` at the end. -/
theorem two_model_chat_walk_three_writer_visits (be : Backend) (st0 : state)
    (input : List Message) (h0 : st0.currentRound = 0)
    (hok : ∀ k l, ∃ m, be.generate k l = Except.ok m) (fuel : Nat) (hfuel : 9 ≤ fuel) :
    ∃ output w, Runner.Stream twoModelChatGraph st0 be fuel input
        = some (RunResult.Completed output w)
      ∧ w.visited = ["writer", "toList1", "critic", "toList2", "writer", "toList1", "critic",
          "toList2", "writer"]
      ∧ w.visited.count "writer" = 3
      ∧ w.st.currentRound = 3 := by
  obtain ⟨k, rfl⟩ : ∃ k, fuel = k + 1 + 4 + 4 := ⟨fuel - 9, by omega⟩
  have hstart : twoModelChatGraph.findEdge START = some "writer" := by
    simp [twoModelChatGraph, NewGraph, Graph.AddChatModelNode, Graph.AddLambdaNode,
      Graph.AddEdge, Graph.AddBranch, Graph.findEdge, START, List.find?]
  have e1 : wrapInt (0 + 1) = 1 := by decide
  have e2 : wrapInt (1 + 1) = 2 := by decide
  have e3 : wrapInt (2 + 1) = 3 := by decide
  obtain ⟨a1, a2, s1, r1⟩ := walk_round be hok input st0 [] []
    (by rw [h0, e1]; omega)
  obtain ⟨b1, b2, s2, r2⟩ := walk_round be hok [a2]
    { currentRound := wrapInt (st0.currentRound + 1), msgs := (st0.msgs ++ input) ++ [a1] }
    ([] ++ ["writer", "toList1", "critic", "toList2"]) ([] ++ [s1])
    (by simp only [h0, e1, e2]; omega)
  obtain ⟨c, s3, r3⟩ := walk_last be hok [b2]
    { currentRound := wrapInt (wrapInt (st0.currentRound + 1) + 1),
      msgs := (((st0.msgs ++ input) ++ [a1]) ++ [a2]) ++ [b1] }
    ([] ++ ["writer", "toList1", "critic", "toList2"]
      ++ ["writer", "toList1", "critic", "toList2"]) ([] ++ [s1] ++ [s2])
    (by simp only [h0, e1, e2, e3]; omega)
  have hrun := (r1 (k + 1 + 4)).trans ((r2 (k + 1)).trans (r3 k))
  rw [Runner.Stream, hstart]
  simp only []
  rw [hrun]
  refine ⟨_, _, rfl, ?_, ?_, ?_⟩
  · simp
  · simp
  · simp only [h0, e1, e2, e3]

/-- Witness for claim C1: the run on the input `["hello"]` with the state `&state{}`, a
backend that always answers and a budget of nine steps. -/
theorem two_model_chat_walk_three_writer_visits_witness :
    ∃ output w, Runner.Stream twoModelChatGraph genLocalState jokeBackend 9
          [UserMessage "hello"]
        = some (RunResult.Completed output w)
      ∧ w.visited = ["writer", "toList1", "critic", "toList2", "writer", "toList1", "critic",
          "toList2", "writer"]
      ∧ w.visited.count "writer" = 3
      ∧ w.st.currentRound = 3 :=
  two_model_chat_walk_three_writer_visits jokeBackend genLocalState [UserMessage "hello"] rfl
    (fun _ _ => ⟨_, rfl⟩) 9 (le_refl 9)

/-- Claim C2: for every run state and every input stream, the writer branch condition
returns without error a name of its declared end-node set: `END` when
`state.currentRound >= 3` and "toList1" otherwise; two evaluations on the same state give
the same name and error whatever the two streams hold. -/
theorem writer_branch_in_end_nodes_and_deterministic (input input2 : StreamReader Message)
    (st : state) :
    (writerBranchCondition input st).1
        = (if 3 ≤ st.currentRound then END else "toList1", none)
      ∧ isEndNode writerBranchEndNodes (writerBranchCondition input st).1.1 = true
      ∧ ((writerBranchCondition input st).1.1 = END
          ∨ (writerBranchCondition input st).1.1 = "toList1")
      ∧ (writerBranchCondition input st).1 = (writerBranchCondition input2 st).1 := by
  by_cases h : 3 ≤ st.currentRound <;>
    simp [writerBranchCondition, ProcessState, isEndNode, writerBranchEndNodes, h, END]

/-- Claim C3: for every stream (whatever is still to come: fragments, a receive error, or
nothing) `toolCallChecker` returns and has then closed the stream exactly once, whichever
return statement it took; the writer branch condition has closed its input stream exactly
once when it returns. -/
theorem stream_predicates_close_exactly_once (sr : StreamReader Message) (st : state) :
    (∃ ret sr1, toolCallChecker sr = some (ret, sr1)
        ∧ sr1.closeCalls = sr.closeCalls + 1)
      ∧ (writerBranchCondition sr st).2.1.closeCalls = sr.closeCalls + 1 := by
  refine ⟨⟨_, _, toolCallChecker_eq sr, rfl⟩, ?_⟩
  simp [writerBranchCondition, ProcessState, StreamReader.Close]

/-- Counterexample to claim C4 as stated: handed a stream with one fragment still to come,
the writer branch condition returns having received no fragment, so the fragments it
received are not the fragments up to end-of-sequence and the fragment is still pending. -/
theorem writer_branch_does_not_drain :
    (writerBranchCondition (StreamReader.fresh [Except.ok plainMessage])
        genLocalState).2.1.delivered = []
      ∧ fragmentsUpToEnd [(Except.ok plainMessage : Except String Message)] = [plainMessage]
      ∧ (writerBranchCondition (StreamReader.fresh [Except.ok plainMessage])
        genLocalState).2.1.delivered
          ≠ fragmentsUpToEnd [(Except.ok plainMessage : Except String Message)]
      ∧ (writerBranchCondition (StreamReader.fresh [Except.ok plainMessage])
        genLocalState).2.1.pending = [Except.ok plainMessage] := by
  simp [writerBranchCondition, ProcessState, StreamReader.Close, StreamReader.fresh,
    fragmentsUpToEnd]

/-- Claim C4, amended: the writer branch condition, which decides from the run state
alone, closes the stream it is handed once and receives nothing from it (the pending
receive results and the fragments handed out are as before), leaves the run state as it
was, and returns `END` when `state.currentRound >= 3` and "toList1" otherwise. -/
theorem writer_branch_closes_without_receiving (input : StreamReader Message) (st : state) :
    writerBranchCondition input st =
      ((if 3 ≤ st.currentRound then END else "toList1", none),
        { pending := input.pending, delivered := input.delivered,
          closeCalls := input.closeCalls + 1 }, st) := by
  by_cases h : 3 ≤ st.currentRound <;>
    simp [writerBranchCondition, ProcessState, StreamReader.Close, h]

/-- Claim C5: for every stream, `toolCallChecker` returns; it returns `(true, nil)` if and
only if a message with at least one tool call comes before any receive error; it returns
`(false, e)` if and only if `e` is the first receive error and no message before it has a
tool call; it returns `(false, nil)` if and only if the stream reaches end-of-sequence with
no tool-call message and no error; and it returns nothing else. -/
theorem toolCallChecker_verdict (sr : StreamReader Message) :
    ∃ ret sr1, toolCallChecker sr = some (ret, sr1)
      ∧ (ret = (true, none) ↔
          ∃ (pre : List Message) (m : Message) (post : List (Except String Message)),
            sr.pending = pre.map Except.ok ++ Except.ok m :: post ∧ 0 < m.ToolCalls.length)
      ∧ (∀ e, ret = (false, some e) ↔
          ∃ (pre : List Message) (text : String) (post : List (Except String Message)),
            e = GoError.other text ∧
            sr.pending = pre.map Except.ok ++ Except.error text :: post ∧
            ∀ m ∈ pre, m.ToolCalls.length = 0)
      ∧ (ret = (false, none) ↔
          ∀ x ∈ sr.pending, ∃ m : Message, x = Except.ok m ∧ m.ToolCalls.length = 0)
      ∧ (ret = (true, none) ∨ (∃ e, ret = (false, some e)) ∨ ret = (false, none)) :=
  ⟨_, _, toolCallChecker_eq sr, toolCallVerdict_true_iff sr.pending,
    toolCallVerdict_error_iff sr.pending, toolCallVerdict_none_iff sr.pending,
    toolCallVerdict_shape sr.pending⟩

/-- Counterexample to claim C6 as stated: on a stream whose first fragment carries a tool
call and whose second does not, `toolCallChecker` returns `(true, nil)` after receiving
one fragment, while two fragments come before end-of-sequence; the second is left
unread. -/
theorem toolCallChecker_stops_at_first_match :
    toolCallChecker (StreamReader.fresh [Except.ok toolCallMessage, Except.ok plainMessage])
        = some ((true, none),
            { pending := [Except.ok plainMessage], delivered := [toolCallMessage],
              closeCalls := 1 })
      ∧ fragmentsUpToEnd [(Except.ok toolCallMessage : Except String Message),
            Except.ok plainMessage] = [toolCallMessage, plainMessage]
      ∧ (toolCallChecker
            (StreamReader.fresh [Except.ok toolCallMessage, Except.ok plainMessage])).map
          (fun r => r.2.delivered.length)
          ≠ some (fragmentsUpToEnd [(Except.ok toolCallMessage : Except String Message),
              Except.ok plainMessage]).length := by
  have hrun : toolCallChecker
      (StreamReader.fresh [Except.ok toolCallMessage, Except.ok plainMessage])
        = some ((true, none),
            { pending := [Except.ok plainMessage], delivered := [toolCallMessage],
              closeCalls := 1 }) := by
    rw [toolCallChecker_eq]
    simp [StreamReader.fresh, toolCallVerdict, toolCallLeft, toolCallConsumed,
      toolCallMessage]
  refine ⟨hrun, by simp [fragmentsUpToEnd], ?_⟩
  rw [hrun]
  simp [fragmentsUpToEnd]

/-- Claim C6, amended: `toolCallChecker` does not always drain its stream. For every stream
it receives the leading fragments that carry no tool call and then stops at the first of:
a fragment with a tool call, which it receives before returning `(true, nil)`, leaving every
later receive result unread; a receive error; or end-of-sequence. The fragments it receives
are always a prefix of the fragments up to end-of-sequence (or up to the first receive
error), and their number equals the number of those fragments exactly when it did not stop
at a tool call or no fragment directly follows the tool-call fragment it stopped at (the
next receive result is end-of-sequence or a receive error); otherwise it is smaller. -/
theorem toolCallChecker_receives_up_to_first_match (sr : StreamReader Message) :
    ∃ ret sr1, toolCallChecker sr = some (ret, sr1) ∧
      ∃ (pre received : List Message), (∀ m ∈ pre, m.ToolCalls.length = 0) ∧
        sr1.delivered = sr.delivered ++ received ∧
        received <+: fragmentsUpToEnd sr.pending ∧
        (received.length = (fragmentsUpToEnd sr.pending).length ↔
          (ret ≠ (true, none) ∨ fragmentsUpToEnd sr1.pending = [])) ∧
        (received.length ≤ (fragmentsUpToEnd sr.pending).length) ∧
        ((∃ (m : Message) (post : List (Except String Message)), 0 < m.ToolCalls.length ∧
            ret = (true, none) ∧
            sr.pending = pre.map Except.ok ++ Except.ok m :: post ∧
            received = pre ++ [m] ∧ sr1.pending = post) ∨
         (∃ (text : String) (post : List (Except String Message)),
            ret = (false, some (GoError.other text)) ∧
            sr.pending = pre.map Except.ok ++ Except.error text :: post ∧
            received = pre ∧ sr1.pending = post ∧
            pre = fragmentsUpToEnd sr.pending) ∨
         (ret = (false, none) ∧
            sr.pending = pre.map Except.ok ∧ received = pre ∧
            sr1.pending = [] ∧ pre = fragmentsUpToEnd sr.pending)) := by
  refine ⟨toolCallVerdict sr.pending, _, toolCallChecker_eq sr, ?_⟩
  obtain ⟨pre, hall, hcases⟩ := toolCall_consumed_cases sr.pending
  rcases hcases with ⟨m, post, hpos, h1, h2, h3⟩ | ⟨t, post, h1, h2, h3⟩ | ⟨h1, h2, h3⟩
  · have hv : toolCallVerdict sr.pending = (true, none) :=
      (toolCallVerdict_true_iff sr.pending).mpr ⟨pre, m, post, h1, hpos⟩
    have hfrag : fragmentsUpToEnd sr.pending = (pre ++ [m]) ++ fragmentsUpToEnd post := by
      rw [h1, fragmentsUpToEnd_map_append]
      simp [fragmentsUpToEnd]
    refine ⟨pre, pre ++ [m], hall, by simp [h2], ⟨fragmentsUpToEnd post, hfrag.symm⟩, ?_, ?_,
      Or.inl ⟨m, post, hpos, hv, h1, rfl, h3⟩⟩
    · simp only [hv, ne_eq, not_true_eq_false, false_or, h3, hfrag, List.length_append]
      constructor
      · intro hlen
        exact List.length_eq_zero.mp (by omega)
      · intro hnil
        simp [hnil]
    · simp only [hfrag, List.length_append]
      omega
  · have hv : toolCallVerdict sr.pending = (false, some (GoError.other t)) :=
      (toolCallVerdict_error_iff sr.pending _).mpr ⟨pre, t, post, rfl, h1, hall⟩
    have hfrag : fragmentsUpToEnd sr.pending = pre := by
      rw [h1]
      exact fragmentsUpToEnd_map_error pre t post
    refine ⟨pre, pre, hall, by simp [h2], by rw [hfrag], ?_, by rw [hfrag],
      Or.inr (Or.inl ⟨t, post, hv, h1, rfl, h3, hfrag.symm⟩)⟩
    simp [hv, hfrag]
  · have hv : toolCallVerdict sr.pending = (false, none) := by
      rw [toolCallVerdict_none_iff, h1]
      intro x hx
      obtain ⟨m, hm, rfl⟩ := List.mem_map.mp hx
      exact ⟨m, rfl, hall m hm⟩
    have hfrag : fragmentsUpToEnd sr.pending = pre := by
      rw [h1]
      exact fragmentsUpToEnd_map_ok pre
    refine ⟨pre, pre, hall, by simp [h2], by rw [hfrag], ?_, by rw [hfrag],
      Or.inr (Or.inr ⟨hv, h1, rfl, h3, hfrag.symm⟩)⟩
    simp [hv, hfrag]

/-! ## The observer bridges -/

/-- The runs of the logger loop, by what stops it: exhaustion, a receive error, a
marshalling error, or the dereference of a nil `info`. -/
theorem loggerLoop_run {α : Type} (marshal : α → Except GoError String)
    (info : Option RunInfo) (fuel : Nat) (output : StreamReader α) (out : List Output)
    (h : output.pending.length < fuel) :
    ∃ r, loggerLoop marshal info fuel output out = some r ∧
      r.stream.closeCalls = output.closeCalls ∧
      ∃ pre : List α, (∀ f ∈ pre, ∃ s, marshal f = Except.ok s) ∧
        ((output.pending = pre.map Except.ok ∧ r.exit = Exit.returned ∧
            r.stream.pending = [] ∧ (pre = [] ∨ info ≠ none)) ∨
         (∃ (text : String) (post : List (Except String α)),
            output.pending = pre.map Except.ok ++ Except.error text :: post ∧
            r.exit = Exit.returned ∧ r.stream.pending = post ∧
            r.emitted.getLast? = some (Output.print ("internal error: " ++ text ++ "\n"))) ∨
         (∃ (f : α) (err : GoError) (post : List (Except String α)),
            output.pending = pre.map Except.ok ++ Except.ok f :: post ∧
            marshal f = Except.error err ∧
            r.exit = Exit.returned ∧ r.stream.pending = post ∧
            r.emitted.getLast?
              = some (Output.print ("internal error: " ++ err.Error ++ "\n"))) ∨
         (∃ (f : α) (s : String) (post : List (Except String α)),
            info = none ∧ pre = [] ∧ output.pending = Except.ok f :: post ∧
            marshal f = Except.ok s ∧
            r.exit = Exit.panicking nilDereference ∧ r.stream.pending = post)) := by
  induction fuel generalizing output out with
  | zero => omega
  | succ n ih =>
    obtain ⟨pending, delivered, closeCalls⟩ := output
    cases pending with
    | nil =>
      exact ⟨{ emitted := out,
               stream := { pending := [], delivered := delivered, closeCalls := closeCalls },
               exit := Exit.returned },
        by simp [loggerLoop, StreamReader.Recv], rfl, [], by simp,
        Or.inl ⟨rfl, rfl, rfl, Or.inl rfl⟩⟩
    | cons x rest =>
      cases x with
      | error t =>
        exact ⟨{ emitted := out ++ [Output.print ("internal error: " ++ t ++ "\n")],
                 stream := { pending := rest, delivered := delivered,
                             closeCalls := closeCalls },
                 exit := Exit.returned },
          by simp [loggerLoop, StreamReader.Recv, GoError.Error], rfl, [], by simp,
          Or.inr (Or.inl ⟨t, rest, rfl, rfl, rfl, by simp⟩)⟩
      | ok f =>
        cases hm : marshal f with
        | error err =>
          exact ⟨{ emitted := out ++ [Output.print ("internal error: " ++ err.Error ++ "\n")],
                   stream := { pending := rest, delivered := delivered ++ [f],
                               closeCalls := closeCalls },
                   exit := Exit.returned },
            by simp [loggerLoop, StreamReader.Recv, hm], rfl, [], by simp,
            Or.inr (Or.inr (Or.inl ⟨f, err, rest, rfl, hm, rfl, rfl, by simp⟩))⟩
        | ok s =>
          cases info with
          | none =>
            exact ⟨{ emitted := out,
                     stream := { pending := rest, delivered := delivered ++ [f],
                                 closeCalls := closeCalls },
                     exit := Exit.panicking nilDereference },
              by simp [loggerLoop, StreamReader.Recv, hm], rfl, [], by simp,
              Or.inr (Or.inr (Or.inr ⟨f, s, rest, rfl, rfl, rfl, hm, rfl, rfl⟩))⟩
          | some i =>
            have hlen : rest.length < n := by simpa using h
            have key : ∀ out1 : List Output,
                loggerLoop marshal (some i) (n + 1)
                    { pending := Except.ok f :: rest, delivered := delivered,
                      closeCalls := closeCalls } out
                  = loggerLoop marshal (some i) n
                    { pending := rest, delivered := delivered ++ [f],
                      closeCalls := closeCalls } out1 →
                ∃ r, loggerLoop marshal (some i) (n + 1)
                    { pending := Except.ok f :: rest, delivered := delivered,
                      closeCalls := closeCalls } out = some r ∧
                  r.stream.closeCalls = closeCalls ∧
                  ∃ pre : List α, (∀ f ∈ pre, ∃ s, marshal f = Except.ok s) ∧
                    ((Except.ok f :: rest = pre.map Except.ok ∧ r.exit = Exit.returned ∧
                        r.stream.pending = [] ∧ (pre = [] ∨ some i ≠ none)) ∨
                     (∃ (text : String) (post : List (Except String α)),
                        Except.ok f :: rest = pre.map Except.ok ++ Except.error text :: post ∧
                        r.exit = Exit.returned ∧ r.stream.pending = post ∧
                        r.emitted.getLast?
                          = some (Output.print ("internal error: " ++ text ++ "\n"))) ∨
                     (∃ (g : α) (err : GoError) (post : List (Except String α)),
                        Except.ok f :: rest = pre.map Except.ok ++ Except.ok g :: post ∧
                        marshal g = Except.error err ∧
                        r.exit = Exit.returned ∧ r.stream.pending = post ∧
                        r.emitted.getLast?
                          = some (Output.print ("internal error: " ++ err.Error ++ "\n"))) ∨
                     (∃ (g : α) (s : String) (post : List (Except String α)),
                        some i = none ∧ pre = [] ∧ Except.ok f :: rest = Except.ok g :: post ∧
                        marshal g = Except.ok s ∧
                        r.exit = Exit.panicking nilDereference ∧ r.stream.pending = post)) := by
              intro out1 hstep
              obtain ⟨r, hr, hclose, pre, hall, hcases⟩ :=
                ih { pending := rest, delivered := delivered ++ [f],
                     closeCalls := closeCalls } out1 hlen
              refine ⟨r, hstep.trans hr, hclose, f :: pre, ?_, ?_⟩
              · intro g hg
                rcases List.mem_cons.mp hg with rfl | h1
                · exact ⟨s, hm⟩
                · exact hall g h1
              · rcases hcases with ⟨h1, h2, h3, _⟩ | ⟨t, post, h1, h2, h3, h4⟩ |
                  ⟨g, err, post, h1, h2, h3, h4, h5⟩ | ⟨g, s1, post, h1, _⟩
                · exact Or.inl ⟨by simp only [List.map_cons]; rw [← h1], h2, h3,
                    Or.inr (by simp)⟩
                · exact Or.inr (Or.inl ⟨t, post,
                    by simp only [List.map_cons, List.cons_append]; rw [← h1], h2, h3, h4⟩)
                · exact Or.inr (Or.inr (Or.inl ⟨g, err, post,
                    by simp only [List.map_cons, List.cons_append]; rw [← h1], h2, h3, h4,
                    h5⟩))
                · exact Option.noConfusion h1
            by_cases hname : (i.Name == graphInfoName) = true
            · exact key (out ++ [Output.print (i.Name ++ ": " ++ s ++ "\n")])
                (by simp [loggerLoop, StreamReader.Recv, hm, hname])
            · exact key out (by simp [loggerLoop, StreamReader.Recv, hm, hname])

/-- The runs of the `OnStreamStart` loop, by what stops it: exhaustion or a receive error. -/
theorem onStreamStartLoop_run (fatalf : FatalfEffect) (fuel : Nat)
    (input : StreamReader CallbackOutput) (out : List Output)
    (h : input.pending.length < fuel) :
    ∃ r, onStreamStartLoop fatalf fuel input out = some r ∧
      r.stream.closeCalls = input.closeCalls ∧
      ∃ pre : List CallbackOutput,
        r.stream.delivered = input.delivered ++ pre ∧
        ((input.pending = pre.map Except.ok ∧ r.exit = Exit.returned ∧
            r.stream.pending = [] ∧
            r.emitted = out ++ pre.map (fun f => Output.send f.Message.Content)) ∨
         (∃ (text : String) (post : List (Except String CallbackOutput)),
            input.pending = pre.map Except.ok ++ Except.error text :: post ∧
            r.exit ≠ Exit.returned ∧ r.stream.pending = post ∧
            r.emitted = out ++ pre.map (fun f => Output.send f.Message.Content)
              ++ [Output.log "Fatalf" ("internal error: " ++ text ++ "\n")])) := by
  induction fuel generalizing input out with
  | zero => omega
  | succ n ih =>
    obtain ⟨pending, delivered, closeCalls⟩ := input
    cases pending with
    | nil =>
      exact ⟨{ emitted := out,
               stream := { pending := [], delivered := delivered, closeCalls := closeCalls },
               exit := Exit.returned },
        by simp [onStreamStartLoop, StreamReader.Recv], rfl, [], by simp,
        Or.inl ⟨rfl, rfl, rfl, by simp⟩⟩
    | cons x rest =>
      cases x with
      | error t =>
        cases fatalf with
        | exits =>
          exact ⟨{ emitted := out ++ [Output.log "Fatalf" ("internal error: " ++ t ++ "\n")],
                   stream := { pending := rest, delivered := delivered,
                               closeCalls := closeCalls },
                   exit := Exit.processExit 1 },
            by simp [onStreamStartLoop, StreamReader.Recv, GoError.Error], rfl, [], by simp,
            Or.inr ⟨t, rest, rfl, by simp, rfl, by simp⟩⟩
        | panics =>
          exact ⟨{ emitted := out ++ [Output.log "Fatalf" ("internal error: " ++ t ++ "\n")],
                   stream := { pending := rest, delivered := delivered,
                               closeCalls := closeCalls },
                   exit := Exit.panicking ("internal error: " ++ t ++ "\n") },
            by simp [onStreamStartLoop, StreamReader.Recv, GoError.Error], rfl, [], by simp,
            Or.inr ⟨t, rest, rfl, by simp, rfl, by simp⟩⟩
        | returns =>
          exact ⟨{ emitted := out ++ [Output.log "Fatalf" ("internal error: " ++ t ++ "\n")],
                   stream := { pending := rest, delivered := delivered,
                               closeCalls := closeCalls },
                   exit := Exit.panicking nilDereference },
            by simp [onStreamStartLoop, StreamReader.Recv, GoError.Error], rfl, [], by simp,
            Or.inr ⟨t, rest, rfl, by simp, rfl, by simp⟩⟩
      | ok f =>
        have hlen : rest.length < n := by simpa using h
        obtain ⟨r, hr, hclose, pre, hdel, hcases⟩ :=
          ih { pending := rest, delivered := delivered ++ [f], closeCalls := closeCalls }
            (out ++ [Output.send f.Message.Content]) hlen
        refine ⟨r, ?_, hclose, f :: pre, by simp [hdel], ?_⟩
        · simpa [onStreamStartLoop, StreamReader.Recv] using hr
        · rcases hcases with ⟨h1, h2, h3, h4⟩ | ⟨t, post, h1, h2, h3, h4⟩
          · exact Or.inl ⟨by simp only [List.map_cons]; rw [← h1], h2, h3, by simp [h4]⟩
          · exact Or.inr ⟨t, post, by simp only [List.map_cons, List.cons_append]; rw [← h1],
              h2, h3, by simp [h4]⟩

/-- Counterexample to claim C7 as stated: on a tapped stream whose first receive result is
the error "boom", `streamResponse.OnStreamStart` hands the error to `logs.Fatalf` and does
not return normally, whatever `logs.Fatalf` does: the process exits (and the stream is
not closed), or a panic leaves the bridge uncaught. -/
theorem on_stream_start_does_not_catch :
    streamResponse.OnStreamStart FatalfEffect.exits (StreamReader.fresh [Except.error "boom"])
        = some { emitted := [Output.send "\n=======\n",
                             Output.log "Fatalf" "internal error: boom\n"],
                 stream := { pending := [], delivered := [], closeCalls := 0 },
                 exit := Exit.processExit 1 }
      ∧ streamResponse.OnStreamStart FatalfEffect.panics
          (StreamReader.fresh [Except.error "boom"])
        = some { emitted := [Output.send "\n=======\n",
                             Output.log "Fatalf" "internal error: boom\n"],
                 stream := { pending := [], delivered := [], closeCalls := 1 },
                 exit := Exit.panicking "internal error: boom\n" }
      ∧ streamResponse.OnStreamStart FatalfEffect.returns
          (StreamReader.fresh [Except.error "boom"])
        = some { emitted := [Output.send "\n=======\n",
                             Output.log "Fatalf" "internal error: boom\n"],
                 stream := { pending := [], delivered := [], closeCalls := 1 },
                 exit := Exit.panicking nilDereference } := by
  refine ⟨?_, ?_, ?_⟩ <;> rfl

/-- Claim C7, amended. The goroutine of `LoggerCallback.OnEndWithStreamOutput` always ends
by returning and has then closed its stream exactly once; a receive error and a
marshalling error are printed as the last line ("internal error: ..."), and the panic of a
nil `info` is recovered and printed as the last line ("[OnEndStream] panic err: ...").
`streamResponse.OnStreamStart` returns with its stream closed exactly once when the stream
runs to end-of-sequence, every fragment forwarded to the channel; on a receive error it
does not catch the failure: it calls `logs.Fatalf` with the error text and does not return
normally. -/
theorem observer_bridges_isolation {α : Type} (marshal : α → Except GoError String)
    (info : Option RunInfo) (output : StreamReader α) (fatalf : FatalfEffect)
    (input : StreamReader CallbackOutput) :
    (∃ r, LoggerCallback.OnEndWithStreamOutput marshal info output = some r ∧
        r.exit = Exit.returned ∧ r.stream.closeCalls = output.closeCalls + 1 ∧
        ∃ pre : List α, (∀ f ∈ pre, ∃ s, marshal f = Except.ok s) ∧
          ((output.pending = pre.map Except.ok ∧ r.stream.pending = [] ∧
              (pre = [] ∨ info ≠ none)) ∨
           (∃ (text : String) (post : List (Except String α)),
              output.pending = pre.map Except.ok ++ Except.error text :: post ∧
              r.stream.pending = post ∧
              r.emitted.getLast?
                = some (Output.print ("internal error: " ++ text ++ "\n"))) ∨
           (∃ (f : α) (err : GoError) (post : List (Except String α)),
              output.pending = pre.map Except.ok ++ Except.ok f :: post ∧
              marshal f = Except.error err ∧ r.stream.pending = post ∧
              r.emitted.getLast?
                = some (Output.print ("internal error: " ++ err.Error ++ "\n"))) ∨
           (∃ (f : α) (s : String) (post : List (Except String α)),
              info = none ∧ pre = [] ∧ output.pending = Except.ok f :: post ∧
              marshal f = Except.ok s ∧ r.stream.pending = post ∧
              r.emitted.getLast?
                = some (Output.print
                    ("[OnEndStream] panic err: " ++ nilDereference ++ "\n")))))
      ∧ (∃ r, streamResponse.OnStreamStart fatalf input = some r ∧
          ∃ pre : List CallbackOutput,
            r.stream.delivered = input.delivered ++ pre ∧
            ((input.pending = pre.map Except.ok ∧ r.exit = Exit.returned ∧
                r.stream.closeCalls = input.closeCalls + 1 ∧ r.stream.pending = [] ∧
                r.emitted = Output.send "\n=======\n"
                  :: pre.map (fun f => Output.send f.Message.Content)) ∨
             (∃ (text : String) (post : List (Except String CallbackOutput)),
                input.pending = pre.map Except.ok ++ Except.error text :: post ∧
                r.exit ≠ Exit.returned ∧
                r.emitted.getLast?
                  = some (Output.log "Fatalf" ("internal error: " ++ text ++ "\n"))))) := by
  constructor
  · obtain ⟨r, hr, hclose, pre, hall, hcases⟩ :=
      loggerLoop_run marshal info (output.pending.length + 1) output
        [Output.print "=========[OnEndStream]=========\n"] (Nat.lt_succ_self _)
    rcases hcases with ⟨h1, h2, h3, h4⟩ | ⟨t, post, h1, h2, h3, h4⟩ |
      ⟨f, err, post, h1, h2, h3, h4, h5⟩ | ⟨f, s, post, h1, h2, h3, h4, h5, h6⟩
    · refine ⟨{ r with stream := r.stream.Close }, ?_, h2, ?_, pre, hall,
        Or.inl ⟨h1, h3, h4⟩⟩
      · simp [LoggerCallback.OnEndWithStreamOutput, hr, h2]
      · simp [StreamReader.Close, hclose]
    · refine ⟨{ r with stream := r.stream.Close }, ?_, h2, ?_, pre, hall,
        Or.inr (Or.inl ⟨t, post, h1, h3, h4⟩)⟩
      · simp [LoggerCallback.OnEndWithStreamOutput, hr, h2]
      · simp [StreamReader.Close, hclose]
    · refine ⟨{ r with stream := r.stream.Close }, ?_, h3, ?_, pre, hall,
        Or.inr (Or.inr (Or.inl ⟨f, err, post, h1, h2, h4, h5⟩))⟩
      · simp [LoggerCallback.OnEndWithStreamOutput, hr, h3]
      · simp [StreamReader.Close, hclose]
    · refine ⟨{ emitted := r.emitted ++
                  [Output.print ("[OnEndStream] panic err: " ++ nilDereference ++ "\n")],
                stream := r.stream.Close, exit := Exit.returned }, ?_, rfl, ?_, pre, hall,
        Or.inr (Or.inr (Or.inr ⟨f, s, post, h1, h2, h3, h4, h6, by simp⟩))⟩
      · simp [LoggerCallback.OnEndWithStreamOutput, hr, h5]
      · simp [StreamReader.Close, hclose]
  · obtain ⟨r, hr, hclose, pre, hdel, hcases⟩ :=
      onStreamStartLoop_run fatalf (input.pending.length + 1) input
        [Output.send "\n=======\n"] (Nat.lt_succ_self _)
    rcases hcases with ⟨h1, h2, h3, h4⟩ | ⟨t, post, h1, h2, h3, h4⟩
    · refine ⟨{ r with stream := r.stream.Close }, ?_, pre, hdel,
        Or.inl ⟨h1, h2, by simp [StreamReader.Close, hclose], h3, by simp [h4]⟩⟩
      simp [streamResponse.OnStreamStart, hr, h2]
    · cases hexit : r.exit with
      | returned => exact absurd hexit h2
      | panicking v =>
        refine ⟨{ r with stream := r.stream.Close }, ?_, pre, hdel,
          Or.inr ⟨t, post, h1, by simp [hexit], by rw [h4, List.getLast?_concat]⟩⟩
        simp [streamResponse.OnStreamStart, hr, hexit]
      | processExit code =>
        refine ⟨r, ?_, pre, hdel,
          Or.inr ⟨t, post, h1, h2, by rw [h4, List.getLast?_concat]⟩⟩
        simp [streamResponse.OnStreamStart, hr, hexit]

/-! ## The result loops -/

/-- The result loop of two_model_chat ends on every stream, with the channel closed, every
receive result consumed and the stream never closed. -/
theorem chatMainLoop_run (fuel : Nat) (outStream : StreamReader Message)
    (h : outStream.pending.length < fuel) :
    ∃ sr1, chatMainLoop fuel outStream = some (sr1, true) ∧ sr1.pending = [] ∧
      sr1.closeCalls = outStream.closeCalls := by
  induction fuel generalizing outStream with
  | zero => omega
  | succ n ih =>
    obtain ⟨pending, delivered, closeCalls⟩ := outStream
    cases pending with
    | nil =>
      exact ⟨{ pending := [], delivered := delivered, closeCalls := closeCalls },
        by simp [chatMainLoop, StreamReader.Recv], rfl, rfl⟩
    | cons x rest =>
      have hlen : rest.length < n := by simpa using h
      cases x with
      | error t =>
        obtain ⟨sr1, h1, h2, h3⟩ :=
          ih { pending := rest, delivered := delivered, closeCalls := closeCalls } hlen
        exact ⟨sr1, by simpa [chatMainLoop, StreamReader.Recv] using h1, h2, h3⟩
      | ok m =>
        obtain ⟨sr1, h1, h2, h3⟩ :=
          ih { pending := rest, delivered := delivered ++ [m], closeCalls := closeCalls } hlen
        exact ⟨sr1, by simpa [chatMainLoop, StreamReader.Recv] using h1, h2, h3⟩

/-- The result loop of react ends on every stream by returning, and leaves the closing to
the deferred call. -/
theorem reactMainLoop_run (fuel : Nat) (sr : StreamReader Message) (out : List Output)
    (h : sr.pending.length < fuel) :
    ∃ r, reactMainLoop fuel sr out = some r ∧ r.exit = Exit.returned ∧
      r.stream.closeCalls = sr.closeCalls := by
  induction fuel generalizing sr out with
  | zero => omega
  | succ n ih =>
    obtain ⟨pending, delivered, closeCalls⟩ := sr
    cases pending with
    | nil =>
      exact ⟨{ emitted := out ++ [Output.log "Infof" "\n\n===== finished =====\n"],
               stream := { pending := [], delivered := delivered, closeCalls := closeCalls },
               exit := Exit.returned },
        by simp [reactMainLoop, StreamReader.Recv], rfl, rfl⟩
    | cons x rest =>
      cases x with
      | error t =>
        exact ⟨{ emitted := out ++ [Output.log "Infof" ("failed to recv: " ++ t)],
                 stream := { pending := rest, delivered := delivered,
                             closeCalls := closeCalls },
                 exit := Exit.returned },
          by simp [reactMainLoop, StreamReader.Recv, GoError.Error], rfl, rfl⟩
      | ok m =>
        have hlen : rest.length < n := by simpa using h
        obtain ⟨r, h1, h2, h3⟩ :=
          ih { pending := rest, delivered := delivered ++ [m], closeCalls := closeCalls }
            (out ++ [Output.log "Tokenf" m.Content]) hlen
        exact ⟨r, by simpa [reactMainLoop, StreamReader.Recv] using h1, h2, h3⟩

/-- Both result loops end on every result stream; the caller in react has then closed the
stream exactly once, the caller in two_model_chat has not closed it at all. -/
theorem result_loops_terminate (sr : StreamReader Message) :
    (∃ r, reactMainConsume sr = some r ∧ r.exit = Exit.returned ∧
        r.stream.closeCalls = sr.closeCalls + 1)
      ∧ (∃ sr1, chatMainConsume sr = some (sr1, true) ∧ sr1.pending = [] ∧
        sr1.closeCalls = sr.closeCalls) := by
  constructor
  · obtain ⟨r, h1, h2, h3⟩ := reactMainLoop_run (sr.pending.length + 1) sr
      [Output.log "Infof" "\n\n===== start streaming =====\n\n"] (Nat.lt_succ_self _)
    exact ⟨{ r with stream := r.stream.Close }, by simp [reactMainConsume, h1], h2,
      by simp [StreamReader.Close, h3]⟩
  · exact chatMainLoop_run (sr.pending.length + 1) sr (Nat.lt_succ_self _)

/-- Claim C8, the code at the failing input: on the result stream holding one message and
then end-of-sequence, both result loops end; when `main` of react finishes the stream has
been closed once, when `main` of two_model_chat finishes the stream has been drained but
never closed (`closeCalls = 0`). -/
theorem chat_main_leaves_result_stream_open :
    reactMainConsume (StreamReader.fresh [Except.ok plainMessage])
        = some { emitted := [Output.log "Infof" "\n\n===== start streaming =====\n\n",
                             Output.log "Tokenf" "hello",
                             Output.log "Infof" "\n\n===== finished =====\n"],
                 stream := { pending := [], delivered := [plainMessage], closeCalls := 1 },
                 exit := Exit.returned }
      ∧ chatMainConsume (StreamReader.fresh [Except.ok plainMessage])
        = some ({ pending := [], delivered := [plainMessage], closeCalls := 0 }, true) := by
  constructor <;> rfl

/-! ## The pre-handlers -/

/-- The increment of the writer pre-handler is Go's `++` on `int`: at the largest `int`, a
value no run reaches (a run enters the writer with `currentRound` 0, 1 or 2), it wraps to
the smallest `int`. -/
theorem writer_pre_handler_wraps_at_max_int :
    (writerPreHandler [] { currentRound := maxInt, msgs := [] }).2.currentRound = minInt
      ∧ (writerPreHandler [] { currentRound := maxInt, msgs := [] }).2.currentRound
          ≠ ({ currentRound := maxInt, msgs := [] } : state).currentRound + 1 := by
  constructor <;> decide

/-- Claim C9: for every run state `s` and input list `xs`, the writer pre-handler leaves
`currentRound` at `s.currentRound + 1` (Go's `int` addition, which is the integer
`s.currentRound + 1` for every `int` below the largest, so for every state a run reaches)
and `msgs = s.msgs ++ xs`, and returns the writer system message followed by exactly that
updated `msgs`; the critic pre-handler leaves `currentRound` unchanged, sets `msgs =
s.msgs ++ xs` and returns the critic system message followed by the updated `msgs`; the old
`msgs` is a prefix of the new one in both; and the state the writer pre-handler leaves is
the state the writer branch condition reads: at the writer node the run completes when the
incremented `currentRound` is `>= 3` and goes on to "toList1" otherwise. -/
theorem pre_handlers_update_state (s : state) (xs : List Message)
    (sr : StreamReader Message) (be : Backend) (w : Walk) (m : Message)
    (hc : w.cursor = "writer") (hi : w.input = Value.msgs xs) (hs : w.st = s)
    (hg : be.generate w.visited.length (writerSystemMessage :: (s.msgs ++ xs))
      = Except.ok m) :
    writerPreHandler xs s
        = (Except.ok (writerSystemMessage :: (s.msgs ++ xs)),
            { currentRound := wrapInt (s.currentRound + 1), msgs := s.msgs ++ xs })
      ∧ (minInt ≤ s.currentRound → s.currentRound < maxInt →
          writerPreHandler xs s
            = (Except.ok (writerSystemMessage :: (s.msgs ++ xs)),
                { currentRound := s.currentRound + 1, msgs := s.msgs ++ xs }))
      ∧ criticPreHandler xs s
        = (Except.ok (criticSystemMessage :: (s.msgs ++ xs)),
            { currentRound := s.currentRound, msgs := s.msgs ++ xs })
      ∧ s.msgs <+: (writerPreHandler xs s).2.msgs
      ∧ s.msgs <+: (criticPreHandler xs s).2.msgs
      ∧ (writerBranchCondition sr (writerPreHandler xs s).2).1
        = (if 3 ≤ (writerPreHandler xs s).2.currentRound then END else "toList1", none)
      ∧ (writerBranchCondition sr (writerPreHandler xs s).2).2.2 = (writerPreHandler xs s).2
      ∧ Runner.step twoModelChatGraph be w
        = (if 3 ≤ (writerPreHandler xs s).2.currentRound then
            StepResult.Completed (Value.msg m)
              { w with st := (writerPreHandler xs s).2,
                       visited := w.visited ++ ["writer"],
                       handed := w.handed ++ [(StreamReader.fresh (be.chunks m)).Close] }
          else
            StepResult.Running
              { cursor := "toList1", input := Value.msg m,
                st := (writerPreHandler xs s).2,
                visited := w.visited ++ ["writer"],
                handed := w.handed ++ [(StreamReader.fresh (be.chunks m)).Close] }) := by
  have hpre : writerPreHandler xs s
      = (Except.ok (writerSystemMessage :: (s.msgs ++ xs)),
          { currentRound := wrapInt (s.currentRound + 1), msgs := s.msgs ++ xs }) := by
    simp [writerPreHandler]
  refine ⟨hpre, ?_, ?_, ?_, ?_, ?_, ?_, ?_⟩
  · intro hlo hhi
    have hw : wrapInt (s.currentRound + 1) = s.currentRound + 1 := by
      simp only [minInt, maxInt] at hlo hhi
      exact wrapInt_small _ (by omega) (by omega)
    rw [hpre, hw]
  · simp [criticPreHandler]
  · simp [writerPreHandler]
  · simp [criticPreHandler]
  · by_cases h3 : 3 ≤ wrapInt (s.currentRound + 1) <;>
      simp [writerBranchCondition, ProcessState, writerPreHandler, h3]
  · simp [writerBranchCondition, ProcessState]
  · subst hs
    rw [step_writer be w xs m hc hi hg, hpre]

/-- Witness for claim C9: the fresh run state, the input `["hello"]` and the first step of
a run at the writer; the round counter goes from 0 to 1. -/
theorem pre_handlers_update_state_witness :
    writerPreHandler [UserMessage "hello"] genLocalState
        = (Except.ok (writerSystemMessage :: (genLocalState.msgs ++ [UserMessage "hello"])),
            { currentRound := wrapInt (genLocalState.currentRound + 1),
              msgs := genLocalState.msgs ++ [UserMessage "hello"] })
      ∧ writerPreHandler [UserMessage "hello"] genLocalState
        = (Except.ok (writerSystemMessage :: (genLocalState.msgs ++ [UserMessage "hello"])),
            { currentRound := genLocalState.currentRound + 1,
              msgs := genLocalState.msgs ++ [UserMessage "hello"] })
      ∧ (writerPreHandler [UserMessage "hello"] genLocalState).2.currentRound = 1 := by
  have h := pre_handlers_update_state genLocalState [UserMessage "hello"]
    (StreamReader.fresh []) jokeBackend
    { cursor := "writer", input := Value.msgs [UserMessage "hello"], st := genLocalState,
      visited := [], handed := [] }
    { Role := RoleType.Assistant, Content := "writer: a joke", ToolCalls := [] }
    rfl rfl rfl rfl
  refine ⟨h.1, h.2.1 (by decide) (by decide), ?_⟩
  rw [h.2.1 (by decide) (by decide)]
  rfl

/-! ## The restaurant service -/

theorem topnLoop_eq {α : Type} (topn : Int) (i : Nat) (ahead res : List α) :
    topnLoop topn i ahead res = res ++ ahead.take (topn - i).toNat := by
  induction ahead generalizing i res with
  | nil => simp [topnLoop]
  | cons x rest ih =>
    by_cases h : (i : Int) < topn
    · have hn : (topn - (i : Int)).toNat = (topn - ((i + 1 : Nat) : Int)).toNat + 1 := by
        omega
      simp only [topnLoop, h, if_true]
      rw [ih, hn, List.take_succ_cons]
      simp
    · have hn : (topn - (i : Int)).toNat = 0 := by omega
      simp [topnLoop, h, hn]

theorem take_toNat_clamp {α : Type} (topn : Int) (xs : List α) :
    xs.take topn.toNat = xs.take (min (max topn 0) (xs.length : Int)).toNat := by
  rw [List.take_eq_take]
  omega

theorem foldl_append_singleton {α β : Type} (f : α → β) (xs : List α) (acc : List β) :
    xs.foldl (fun res x => res ++ [f x]) acc = acc ++ xs.map f := by
  induction xs generalizing acc with
  | nil => simp
  | cons x rest ih => simp [ih]

theorem GoMap.get_eq_none_iff {ν : Type} (m : GoMap ν) (k : String) :
    m.get k = none ↔ k ∉ m.map (fun e => e.1) := by
  simp only [GoMap.get, Option.map_eq_none', List.find?_eq_none, List.mem_map, not_exists,
    not_and]
  constructor
  · intro h e he hk
    exact h e he (by simp [hk])
  · intro h e he hk
    exact h e he (by simpa using hk)

theorem GoMap.get_of_mem {ν : Type} (m : GoMap ν) (k : String) (v : ν)
    (hnodup : (m.map (fun e => e.1)).Nodup) (hmem : (k, v) ∈ m) : m.get k = some v := by
  induction m with
  | nil => simp at hmem
  | cons e rest ih =>
    simp only [List.map_cons, List.nodup_cons] at hnodup
    rcases List.mem_cons.mp hmem with h | h
    · subst h
      simp [GoMap.get]
    · have hne : e.1 ≠ k := by
        intro heq
        apply hnodup.1
        rw [heq]
        exact List.mem_map.mpr ⟨(k, v), h, rfl⟩
      have hb : (e.1 == k) = false := by simpa using hne
      have := ih hnodup.2 h
      simp only [GoMap.get] at this ⊢
      rw [List.find?_cons, hb]
      exact this

theorem perm_pair {α : Type} (l : List α) (a b : α) (h : l.Perm [a, b]) :
    l = [a, b] ∨ l = [b, a] := by
  have hlen := h.length_eq
  match l, hlen with
  | [x, y], _ =>
    have hx : x ∈ [a, b] := h.subset (by simp)
    have hy : y ∈ [a, b] := h.subset (by simp)
    have ha : a ∈ [x, y] := h.symm.subset (by simp)
    have hb : b ∈ [x, y] := h.symm.subset (by simp)
    simp only [List.mem_cons, List.mem_singleton, List.not_mem_nil, or_false] at hx hy ha hb
    rcases hx with rfl | rfl <;> rcases hy with rfl | rfl
    · rcases hb with rfl | rfl <;> simp
    · simp
    · simp
    · rcases ha with rfl | rfl <;> simp

/-- Whatever order `init` visits the locations in, the id map holds every stored
restaurant under its own id, and no id twice. -/
theorem init_restaurantByID (order : GoMap (List restaurantDataItem))
    (hperm : order.Perm getData) :
    ((init order).restaurantByID.map (fun e => e.1)).Nodup ∧
      (∀ k, k ∈ (init order).restaurantByID.map (fun e => e.1)
        ↔ k ∈ storedRestaurants.map (fun r => r.ID)) ∧
      ∀ rest ∈ storedRestaurants, (rest.ID, rest) ∈ (init order).restaurantByID := by
  have hp : (order.flatMap (fun e => e.2)).Perm storedRestaurants :=
    List.Perm.flatMap_right _ hperm
  have hmap : (init order).restaurantByID
      = (order.flatMap (fun e => e.2)).map (fun r => (r.ID, r)) := by
    rcases perm_pair order _ _ hperm with h | h <;> (rw [h]; rfl)
  have hkeys : (init order).restaurantByID.map (fun e => e.1)
      = (order.flatMap (fun e => e.2)).map (fun r => r.ID) := by
    rw [hmap, List.map_map]
    rfl
  have hpk : ((order.flatMap (fun e => e.2)).map (fun r => r.ID)).Perm
      (storedRestaurants.map (fun r => r.ID)) := hp.map _
  refine ⟨?_, fun k => ?_, fun rest hr => ?_⟩
  · rw [hkeys]
    exact hpk.nodup_iff.mpr (by decide)
  · rw [hkeys]
    exact hpk.mem_iff
  · rw [hmap]
    exact List.mem_map.mpr ⟨rest, hp.mem_iff.mpr hr, rfl⟩

/-- Claim C10: whatever order `init` visited the locations in, for every restaurant id and
every integer `topn`, `QueryDishes` fails if and only if the id is not a stored restaurant
id, and then with the error "restaurant <id> not found"; for the id of a stored restaurant
it returns without error the first `min(max(topn, 0), n)` of its `n` dishes in stored order,
each with Name, Desc, Price and Score copied unchanged, so at most `topn` entries and none
for `topn <= 0`. -/
theorem QueryDishes_spec (order : GoMap (List restaurantDataItem))
    (hperm : order.Perm getData) (restaurantID : String) (topn : Int) :
    ((∃ err, (restService order).QueryDishes
          { RestaurantID := restaurantID, Topn := topn } = Except.error err)
        ↔ restaurantID ∉ storedRestaurants.map (fun r => r.ID))
      ∧ (∀ err, (restService order).QueryDishes
          { RestaurantID := restaurantID, Topn := topn } = Except.error err →
            err = GoError.other ("restaurant " ++ restaurantID ++ " not found"))
      ∧ (∀ rest ∈ storedRestaurants, rest.ID = restaurantID →
          (restService order).QueryDishes { RestaurantID := restaurantID, Topn := topn }
            = Except.ok ((rest.Dishes.take
                (min (max topn 0) (rest.Dishes.length : Int)).toNat).map Dish.ofItem)
          ∧ ((rest.Dishes.take
                (min (max topn 0) (rest.Dishes.length : Int)).toNat).length : Int)
              ≤ max topn 0) := by
  obtain ⟨hnodup, hkeys, hmem⟩ := init_restaurantByID order hperm
  have hq : ∀ rest, (init order).restaurantByID.get restaurantID = some rest →
      (restService order).QueryDishes { RestaurantID := restaurantID, Topn := topn }
        = Except.ok ((rest.Dishes.take
            (min (max topn 0) (rest.Dishes.length : Int)).toNat).map Dish.ofItem) := by
    intro rest hget
    have hf : ∀ xs : List restaurantDishDataItem,
        xs.foldl (fun res dish =>
          res ++ [Dish.mk dish.Name dish.Desc dish.Price dish.Score]) []
            = xs.map Dish.ofItem :=
      fun xs => (foldl_append_singleton Dish.ofItem xs []).trans (by simp)
    simp only [fakeService.QueryDishes, restService,
      restaurantDatabase.GetDishesByRestaurant, hget, topnLoop_eq, List.nil_append, hf,
      Nat.cast_zero, sub_zero]
    rw [take_toNat_clamp]
  cases hget : (init order).restaurantByID.get restaurantID with
  | none =>
    have hnot := (GoMap.get_eq_none_iff _ _).mp hget
    rw [hkeys] at hnot
    refine ⟨?_, ?_, ?_⟩
    · simp only [hnot, not_false_eq_true, iff_true]
      exact ⟨GoError.other ("restaurant " ++ restaurantID ++ " not found"),
        by simp [fakeService.QueryDishes, restService,
          restaurantDatabase.GetDishesByRestaurant, hget]⟩
    · intro err herr
      simp [fakeService.QueryDishes, restService,
        restaurantDatabase.GetDishesByRestaurant, hget] at herr
      exact herr.symm
    · intro rest hr hid
      exact absurd (List.mem_map.mpr ⟨rest, hr, hid⟩) hnot
  | some found =>
    have hin : restaurantID ∈ storedRestaurants.map (fun r => r.ID) := by
      rw [← hkeys]
      by_contra hc
      rw [(GoMap.get_eq_none_iff _ _).mpr hc] at hget
      exact Option.noConfusion hget
    refine ⟨?_, ?_, ?_⟩
    · simp only [hin, not_true_eq_false, iff_false, not_exists]
      intro err
      rw [hq found hget]
      exact fun h => Except.noConfusion h
    · intro err herr
      rw [hq found hget] at herr
      exact Except.noConfusion herr
    · intro rest hr hid
      have h1 := GoMap.get_of_mem _ _ _ hnodup (hmem rest hr)
      rw [hid] at h1
      refine ⟨hq rest h1, ?_⟩
      rw [List.length_take]
      omega

/-- Witness for claim C10: the data visited in source order, the restaurant "1001" and
`topn = 2`. -/
theorem QueryDishes_spec_witness :
    getData.Perm getData ∧
    (((∃ err, (restService getData).QueryDishes
          { RestaurantID := "1001", Topn := 2 } = Except.error err)
        ↔ "1001" ∉ storedRestaurants.map (fun r => r.ID))
      ∧ (∀ err, (restService getData).QueryDishes
          { RestaurantID := "1001", Topn := 2 } = Except.error err →
            err = GoError.other ("restaurant " ++ "1001" ++ " not found"))
      ∧ (∀ rest ∈ storedRestaurants, rest.ID = "1001" →
          (restService getData).QueryDishes { RestaurantID := "1001", Topn := 2 }
            = Except.ok ((rest.Dishes.take
                (min (max 2 0) (rest.Dishes.length : Int)).toNat).map Dish.ofItem)
          ∧ ((rest.Dishes.take
                (min (max 2 0) (rest.Dishes.length : Int)).toNat).length : Int)
              ≤ max 2 0)) :=
  ⟨List.Perm.refl _, QueryDishes_spec getData (List.Perm.refl _) "1001" 2⟩

/-- A run of `QueryDishes` on the stored data: the first two dishes of restaurant "1001". -/
theorem QueryDishes_example :
    (restService getData).QueryDishes { RestaurantID := "1001", Topn := 2 }
      = Except.ok
          [ { Name := "Braised Pork", Desc := "A piece of braised pork",
              Price := 20, Score := 8 },
            { Name := "Spring Water Beef", Desc := "Lots of boiled beef",
              Price := 50, Score := 8 } ] := by
  rfl

/-! ## The restaurant lookup by location -/

theorem containsChars_iff_infix (s sub : List Char) :
    containsChars s sub = true ↔ sub <:+: s := by
  induction s with
  | nil => simp [containsChars, List.infix_nil]
  | cons c rest ih =>
    simp only [containsChars, Bool.or_eq_true, ih, List.infix_cons_iff,
      List.isPrefixOf_iff_prefix]

/-- Whatever order `init` visits the locations in, the location map holds the entries of
the data. -/
theorem init_restaurantsByLocation (order : GoMap (List restaurantDataItem))
    (hperm : order.Perm getData) : (init order).restaurantsByLocation.Perm getData := by
  rcases perm_pair order _ _ hperm with h | h
  · rw [h]
    exact List.Perm.refl _
  · rw [h]
    exact List.Perm.swap _ _ _

theorem getRestaurantsLoop_none (location : String) (topn : Int)
    (visit : GoMap (List restaurantDataItem)) :
    (∃ err, getRestaurantsLoop location topn visit = Except.error err)
      ↔ ∀ e ∈ visit, locationMatches e.1 location = false := by
  induction visit with
  | nil => simp [getRestaurantsLoop]
  | cons e rest ih =>
    obtain ⟨name, rests⟩ := e
    by_cases hm : locationMatches name location = true
    · have hm1 := hm
      simp only [locationMatches] at hm1
      simp [getRestaurantsLoop, hm1, hm]
    · have hm1 := hm
      simp only [locationMatches] at hm1
      simp only [getRestaurantsLoop, hm1, if_false, Bool.false_eq_true]
      rw [ih]
      simp only [Bool.not_eq_true] at hm
      simp [hm]

theorem getRestaurantsLoop_error (location : String) (topn : Int)
    (visit : GoMap (List restaurantDataItem)) (err : GoError)
    (h : getRestaurantsLoop location topn visit = Except.error err) :
    err = GoError.other ("location " ++ location ++ " not found") := by
  induction visit with
  | nil =>
    simp only [getRestaurantsLoop, Except.error.injEq] at h
    exact h.symm
  | cons e rest ih =>
    obtain ⟨name, rests⟩ := e
    by_cases hm : (stringsContains name location || stringsContains location name) = true
    · simp [getRestaurantsLoop, hm] at h
    · simp only [getRestaurantsLoop, hm, if_false, Bool.false_eq_true] at h
      exact ih h

theorem getRestaurantsLoop_unique (location : String) (topn : Int)
    (visit : GoMap (List restaurantDataItem)) (e : String × List restaurantDataItem)
    (hmem : e ∈ visit) (hm : locationMatches e.1 location = true)
    (hothers : ∀ e1 ∈ visit, e1 ≠ e → locationMatches e1.1 location = false) :
    getRestaurantsLoop location topn visit = Except.ok (topnLoop topn 0 e.2 []) := by
  induction visit with
  | nil => simp at hmem
  | cons x rest ih =>
    obtain ⟨name, rests⟩ := x
    by_cases hx : (name, rests) = e
    · subst hx
      simp only [locationMatches] at hm
      simp [getRestaurantsLoop, hm]
    · have hxm := hothers (name, rests) (by simp) hx
      simp only [locationMatches] at hxm
      have hmem1 : e ∈ rest := by
        rcases List.mem_cons.mp hmem with h1 | h1
        · exact absurd h1.symm hx
        · exact h1
      simp only [getRestaurantsLoop, hxm, if_false, Bool.false_eq_true]
      exact ih hmem1 (fun e1 h1 hne => hothers e1 (List.mem_cons_of_mem _ h1) hne)

/-- Where the query matches no stored location, or exactly one, `QueryRestaurants` gives the
same outcome whatever order `init` and `GetRestaurantsByLocation` visit their maps in: it
fails, with "location <query> not found", if and only if no stored location name contains
the query or is contained in it; and when exactly one stored location matches, it returns
the first `min(max(topn, 0), n)` of the `n` restaurants of that location in stored order,
each with ID, Name, Place and Score copied. -/
theorem QueryRestaurants_unambiguous (order : GoMap (List restaurantDataItem))
    (hperm : order.Perm getData)
    (rangeOrder : GoMap (List restaurantDataItem) → GoMap (List restaurantDataItem))
    (hrange : (rangeOrder (init order).restaurantsByLocation).Perm
      (init order).restaurantsByLocation)
    (location : String) (topn : Int) :
    ((∃ err, (restService order).QueryRestaurants rangeOrder
          { Location := location, Topn := topn } = Except.error err)
        ↔ ∀ e ∈ getData, locationMatches e.1 location = false)
      ∧ (∀ err, (restService order).QueryRestaurants rangeOrder
          { Location := location, Topn := topn } = Except.error err →
            err = GoError.other ("location " ++ location ++ " not found"))
      ∧ (∀ e ∈ getData, locationMatches e.1 location = true →
          (∀ e1 ∈ getData, e1 ≠ e → locationMatches e1.1 location = false) →
          (restService order).QueryRestaurants rangeOrder
              { Location := location, Topn := topn }
            = Except.ok ((e.2.take
                (min (max topn 0) (e.2.length : Int)).toNat).map Restaurant.ofItem)) := by
  have hv : (rangeOrder (init order).restaurantsByLocation).Perm getData :=
    hrange.trans (init_restaurantsByLocation order hperm)
  have hf : ∀ xs : List restaurantDataItem,
      xs.foldl (fun res rest =>
        res ++ [Restaurant.mk rest.ID rest.Name rest.Place rest.Score]) []
          = xs.map Restaurant.ofItem :=
    fun xs => (foldl_append_singleton Restaurant.ofItem xs []).trans (by simp)
  cases hloop : getRestaurantsLoop location topn
      (rangeOrder (init order).restaurantsByLocation) with
  | error err0 =>
    have hq : (restService order).QueryRestaurants rangeOrder
        { Location := location, Topn := topn } = Except.error err0 := by
      simp [fakeService.QueryRestaurants, restService,
        restaurantDatabase.GetRestaurantsByLocation, hloop]
    have hnone := (getRestaurantsLoop_none location topn _).mp ⟨err0, hloop⟩
    have hnone1 : ∀ e ∈ getData, locationMatches e.1 location = false :=
      fun e he => hnone e (hv.mem_iff.mpr he)
    refine ⟨?_, ?_, ?_⟩
    · exact ⟨fun _ => hnone1, fun _ => ⟨err0, hq⟩⟩
    · intro err herr
      rw [hq] at herr
      simp only [Except.error.injEq] at herr
      rw [← herr]
      exact getRestaurantsLoop_error location topn _ err0 hloop
    · intro e he hm _
      rw [hnone1 e he] at hm
      exact Bool.noConfusion hm
  | ok rests =>
    have hq : (restService order).QueryRestaurants rangeOrder
        { Location := location, Topn := topn } = Except.ok (rests.map Restaurant.ofItem) := by
      simp [fakeService.QueryRestaurants, restService,
        restaurantDatabase.GetRestaurantsByLocation, hloop, hf]
    have hsome : ¬ ∀ e ∈ getData, locationMatches e.1 location = false := by
      intro hall
      obtain ⟨err, herr⟩ := (getRestaurantsLoop_none location topn
        (rangeOrder (init order).restaurantsByLocation)).mpr
          (fun e he => hall e (hv.mem_iff.mp he))
      rw [hloop] at herr
      exact Except.noConfusion herr
    refine ⟨?_, ?_, ?_⟩
    · constructor
      · rintro ⟨err, herr⟩
        rw [hq] at herr
        exact Except.noConfusion herr
      · intro hall
        exact absurd hall hsome
    · intro err herr
      rw [hq] at herr
      exact Except.noConfusion herr
    · intro e he hm hothers
      have hu := getRestaurantsLoop_unique location topn
        (rangeOrder (init order).restaurantsByLocation) e (hv.mem_iff.mpr he) hm
        (fun e1 h1 hne => hothers e1 (hv.mem_iff.mp h1) hne)
      rw [hloop] at hu
      simp only [Except.ok.injEq] at hu
      rw [hq, hu, topnLoop_eq]
      simp only [List.nil_append, Nat.cast_zero, sub_zero]
      rw [take_toNat_clamp]

/-- Claim C11, the code at the failing input: the query "Beijing Shanghai" contains both
stored location names (and the empty query is contained in both), so the outcome of
`QueryRestaurants` with `topn = 1` follows the order in which `range` visits the location
map: the first restaurant of Beijing when Beijing is visited first, the first restaurant of
Shanghai when Shanghai is visited first. Both visiting orders are rearrangements of the
same map. -/
theorem QueryRestaurants_depends_on_iteration_order :
    (id (init getData).restaurantsByLocation).Perm (init getData).restaurantsByLocation
      ∧ (List.reverse (init getData).restaurantsByLocation).Perm
          (init getData).restaurantsByLocation
      ∧ locationMatches "Beijing" "Beijing Shanghai" = true
      ∧ locationMatches "Shanghai" "Beijing Shanghai" = true
      ∧ (restService getData).QueryRestaurants id
            { Location := "Beijing Shanghai", Topn := 1 }
          = Except.ok [{ ID := "1001", Name := "Cloud Edge Restaurant", Place := "Beijing",
                         Score := 3 }]
      ∧ (restService getData).QueryRestaurants List.reverse
            { Location := "Beijing Shanghai", Topn := 1 }
          = Except.ok [{ ID := "2001", Name := "Hongbin Elegant Restaurant",
                         Place := "Shanghai", Score := 3 }]
      ∧ (restService getData).QueryRestaurants id { Location := "", Topn := 1 }
          = Except.ok [{ ID := "1001", Name := "Cloud Edge Restaurant", Place := "Beijing",
                         Score := 3 }]
      ∧ (restService getData).QueryRestaurants List.reverse { Location := "", Topn := 1 }
          = Except.ok [{ ID := "2001", Name := "Hongbin Elegant Restaurant",
                         Place := "Shanghai", Score := 3 }]
      ∧ (restService getData).QueryRestaurants id
            { Location := "Beijing Shanghai", Topn := 1 }
          ≠ (restService getData).QueryRestaurants List.reverse
            { Location := "Beijing Shanghai", Topn := 1 } := by
  refine ⟨List.Perm.refl _, List.reverse_perm _, rfl, rfl, rfl, rfl, rfl, rfl, ?_⟩
  intro h
  have h1 : (restService getData).QueryRestaurants id
      { Location := "Beijing Shanghai", Topn := 1 }
      = Except.ok [{ ID := "1001", Name := "Cloud Edge Restaurant", Place := "Beijing",
                     Score := 3 }] := rfl
  have h2 : (restService getData).QueryRestaurants List.reverse
      { Location := "Beijing Shanghai", Topn := 1 }
      = Except.ok [{ ID := "2001", Name := "Hongbin Elegant Restaurant",
                     Place := "Shanghai", Score := 3 }] := rfl
  rw [h1, h2] at h
  simp at h

/-- A run of `QueryRestaurants` on a query that matches one location only: the first two
restaurants of Beijing, in either visiting order of the location map. -/
theorem QueryRestaurants_example :
    (restService getData).QueryRestaurants id { Location := "Beijing", Topn := 2 }
        = Except.ok
            [ { ID := "1001", Name := "Cloud Edge Restaurant", Place := "Beijing",
                Score := 3 },
              { ID := "1002", Name := "Jufu Mansion Restaurant", Place := "Beijing",
                Score := 5 } ]
      ∧ (restService getData).QueryRestaurants List.reverse
          { Location := "Beijing", Topn := 2 }
        = (restService getData).QueryRestaurants id { Location := "Beijing", Topn := 2 } := by
  constructor <;> rfl

end EinoExp
